import Mathlib

/-!
# avTranscoder — `OutputFile` (src/AvTranscoder/file/OutputFile.cpp)

A shallow embedding of the output-file wrapper: stream registration, the
`beginWrap` / `wrap` / `endWrap` cycle, the pacing watermark
(`_previousProcessedStreamDuration`) and the two-phase application of format
options.

Modelling conventions

* The container adapter (`FormatContext`, declared outside the translated
  sources) is a parameter: a record of operations over an arbitrary adapter
  state `σ`.  A fallible adapter call returns the adapter state it leaves
  behind together with a flag saying whether it returned normally (`true`) or
  raised an exception (`false`).
* Every call handed to the adapter is appended to the ghost field `calls` of
  the wrapper state, with its outcome; the field has no influence on the
  computation.
* A C++ member function becomes a function returning an `Outcome` (value
  returned, or exception raised) and the wrapper state left behind, so the
  state after a failed call can be observed.
* `double` durations are read as rationals: the only operations performed on
  them are the comparison `<` and assignment, and the adapter is taken to
  report numbers (no NaN).
* `std::vector` is `List`; `at` is a checked access raising `std::out_of_range`.
  Frame counters are natural numbers (the `++` of line 188 is not taken modulo
  the width of the counter type, whose declaration is outside the sources).
-/

namespace avtranscoder

/-! ## Data passed to the wrapper -/

/-- The coded data handed to `wrap` (`CodedData`): a byte buffer. -/
structure CodedData where
  buffer : List Nat
  deriving DecidableEq, Repr

/-- The bytes of the buffer: `CodedData::getData()`. -/
def CodedData.getData (d : CodedData) : List Nat := d.buffer

/-- The size of the buffer: `CodedData::getSize()`. -/
def CodedData.getSize (d : CodedData) : Nat := d.buffer.length

/-- Conversion of a `size_t` to the 32-bit `int` of the libav packet fields. -/
def toInt32 (n : Nat) : Int :=
  if n % 2 ^ 32 < 2 ^ 31 then ((n % 2 ^ 32 : Nat) : Int) else ((n % 2 ^ 32 : Nat) : Int) - 2 ^ 32

/-- The libav packet filled by `wrap` (lines 169-173). -/
structure AVPacket where
  stream_index : Int
  data : List Nat
  size : Int
  deriving DecidableEq, Repr

/-- A rational time base (`AVRational`). -/
structure AVRational where
  num : Int
  den : Int
  deriving DecidableEq, Repr

/-- The fields of a video codec description read by `addVideoStream`. -/
structure VideoCodec where
  codec : String
  width : Int
  height : Int
  bit_rate : Int
  pix_fmt : Int
  profile : Int
  level : Int
  extradata : List Nat
  extradata_size : Int
  time_base : AVRational
  ticks_per_frame : Int
  deriving DecidableEq, Repr

/-- The fields of an audio codec description read by `addAudioStream`. -/
structure AudioCodec where
  codec : String
  sample_rate : Int
  channels : Int
  channel_layout : Int
  sample_fmt : Int
  frame_size : Int
  time_base : AVRational
  deriving DecidableEq, Repr

/-- The field of a data codec description read by `addDataStream`. -/
structure DataCodec where
  codec : String
  deriving DecidableEq, Repr

/-- Result of `wrap`: `IOutputStream::EWrappingStatus`. -/
inductive EWrappingStatus where
  | eWrappingSuccess
  | eWrappingWaitingForData
  | eWrappingError
  deriving DecidableEq, Repr

/-- The exceptions that leave a member function of `OutputFile`. -/
inductive Error where
  /-- Exception `std::out_of_range`, raised by `std::vector::at`. -/
  | outOfRange
  /-- Exception `std::runtime_error` thrown by `OutputFile` itself, with its message. -/
  | runtimeError (msg : String)
  /-- An exception raised inside the container adapter. -/
  | adapterError
  /-- Dereference of the end iterator returned by a failed `find` (line 232). -/
  | endIteratorDereferenced
  deriving DecidableEq, Repr

/-- How a member function ends: it returns a value or raises an exception. -/
inductive Outcome (α : Type) where
  | returned (value : α)
  | threw (e : Error)
  deriving DecidableEq, Repr

/-! ## The profile map -/

/-- The keys of a list of (name, value) entries. -/
def entryKeys (es : List (String × String)) : List String := es.map Prod.fst

/-- Assignment `m[k] = v` on a list of entries: the value of an existing key
is replaced in place, a new key is added at the end. -/
def setEntry : List (String × String) → String → String → List (String × String)
  | [], k, v => [(k, v)]
  | e :: es, k, v => if e.1 = k then (k, v) :: es else e :: setEntry es k v

/-- Modelled from the spec: `ProfileLoader::Profile`, whose declaration is
outside the translated sources, is a mapping of option name to string value
(one entry per name) traversed in insertion order. -/
structure Profile where
  entries : List (String × String)
  nodup : (entryKeys entries).Nodup

/-- The empty profile. -/
def Profile.empty : Profile := ⟨[], List.nodup_nil⟩

/-- The assignment `profile[ key ] = value`. -/
def Profile.set (p : Profile) (k v : String) : Profile :=
  ⟨setEntry p.entries k v, by
    have keys : ∀ es : List (String × String), entryKeys (setEntry es k v) =
        if k ∈ entryKeys es then entryKeys es else entryKeys es ++ [k] := by
      intro es
      induction es with
      | nil => simp [setEntry, entryKeys]
      | cons e es ih =>
        unfold entryKeys at ih ⊢
        by_cases h : e.1 = k
        · simp [setEntry, h]
        · have h2 : ¬ k = e.1 := fun c => h c.symm
          simp only [setEntry, h, if_false, List.map_cons, ih, List.mem_cons, h2, false_or]
          split <;> simp
    rw [keys]
    split
    · exact p.nodup
    · rename_i hk
      exact List.Nodup.append p.nodup (List.nodup_singleton k) (by simpa using hk)⟩

/-- The lookup `profile.find( key )`: the value of the entry, `none` for `end()`. -/
def Profile.find (p : Profile) (k : String) : Option String :=
  (p.entries.find? (fun e => e.1 = k)).map Prod.snd

/-! ## Environment of the translation unit -/

/-- What `OutputFile.cpp` takes from headers that are not translated: the four
reserved profile keys of `constants`, `ProfileLoader::checkFormatProfile`,
`matchFormat` of `util.hpp`, and whether the macro `LOG_DEBUG` evaluates the
operands it is given (line 167 passes it `_frameCount.at( streamIndex )`). -/
structure Env where
  avProfileIdentificator : String
  avProfileIdentificatorHuman : String
  avProfileType : String
  avProfileFormat : String
  checkFormatProfile : Profile → Bool
  matchFormat : String → String → Bool
  logDebugEvaluates : Bool

/-- The test of lines 248-251 and 272-275: the key is one of the four reserved
profile keys. -/
def Env.isReserved (env : Env) (key : String) : Bool :=
  key == env.avProfileIdentificator ||
  key == env.avProfileIdentificatorHuman ||
  key == env.avProfileType ||
  key == env.avProfileFormat

/-! ## The container adapter -/

/-- The operations `OutputFile` uses of its `FormatContext`, over an adapter
state `σ`.  `setOption a key value` stands for the body of the try blocks,
`getOption( key )` followed by `setString( value )` on the option found; it
fails when either call raises.  `setVideoFields` and `setAudioFields` stand for
the writes of lines 37-62 and 74-86 into the stream returned by `addAVStream`.
`getStreamDuration a i` is `OutputStream::getStreamDuration()` of the stream
whose index in the container is `i`. -/
structure FormatContext (σ : Type) where
  setFilename : σ → String → σ
  setOutputFormat : σ → String → String → String → σ × Bool
  getFilename : σ → String
  addAVStream : σ → String → σ × Bool
  setVideoFields : σ → VideoCodec → σ
  setAudioFields : σ → AudioCodec → σ
  getNbStreams : σ → Nat
  openRessource : σ → String → σ × Bool
  writeHeader : σ → σ × Bool
  writeFrame : σ → AVPacket → σ × Bool
  writeTrailer : σ → σ × Bool
  closeRessource : σ → σ × Bool
  setOption : σ → String → String → σ × Bool
  addMetaData : σ → String → String → σ × Bool
  getStreamDuration : σ → Nat → ℚ

/-- A call handed to the adapter. -/
inductive Call where
  | setFilename (filename : String)
  | setOutputFormat (filename formatName mimeType : String)
  | addAVStream (codec : String)
  | openRessource (filename : String)
  | writeHeader
  | writeFrame (packet : AVPacket)
  | writeTrailer
  | closeRessource
  | setOption (key value : String)
  | addMetaData (key value : String)
  deriving DecidableEq, Repr

/-- A call handed to the adapter and whether it returned normally. -/
structure Event where
  call : Call
  ok : Bool
  deriving DecidableEq, Repr

/-! ## The wrapper state -/

/-- The stream descriptor created at registration (`OutputStream`): it keeps the
index of its stream in the container. -/
structure OutputStream where
  _streamIndex : Nat
  deriving DecidableEq, Repr

/-- The members of `OutputFile`, and the ghost list of adapter calls. -/
structure OutputFile (σ : Type) where
  _formatContext : σ
  _outputStreams : List OutputStream
  _frameCount : List Nat
  _previousProcessedStreamDuration : ℚ
  _profile : Profile
  calls : List Event

variable {σ : Type}

/-- The state after an adapter call: the adapter state it left and the call
appended to the ghost list. -/
def OutputFile.afterCall (s : OutputFile σ) (r : σ × Bool) (c : Call) : OutputFile σ :=
  { s with _formatContext := r.1, calls := s.calls ++ [⟨c, r.2⟩] }

/-- The constructor (lines 14-23), given the adapter state `a` produced by
`FormatContext( AV_OPT_FLAG_ENCODING_PARAM )`. -/
def OutputFile.new (ad : FormatContext σ) (a : σ) (filename formatName mimeType : String) :
    Outcome (OutputFile σ) :=
  let s0 : OutputFile σ :=
    { _formatContext := ad.setFilename a filename
      _outputStreams := []
      _frameCount := []
      _previousProcessedStreamDuration := 0
      _profile := Profile.empty
      calls := [⟨.setFilename filename, true⟩] }
  let s1 := s0.afterCall (ad.setOutputFormat s0._formatContext filename formatName mimeType)
    (.setOutputFormat filename formatName mimeType)
  if (ad.setOutputFormat s0._formatContext filename formatName mimeType).2 then .returned s1
  else .threw .adapterError

/-! ## Stream registration -/

/-- Lines 64-65, 88-89 and 98-99: a descriptor is created for the index
`getNbStreams() - 1` and pushed on `_outputStreams`.  (The adapter count is at
least one after a successful `addAVStream`; the subtraction is the truncated
one.) -/
def OutputFile.pushOutputStream (ad : FormatContext σ) (s : OutputFile σ) :
    Outcome OutputStream × OutputFile σ :=
  let outputStream : OutputStream := ⟨ad.getNbStreams s._formatContext - 1⟩
  (.returned outputStream, { s with _outputStreams := s._outputStreams ++ [outputStream] })

/-- The function `OutputFile::addVideoStream` (lines 33-68). -/
def OutputFile.addVideoStream (ad : FormatContext σ) (s : OutputFile σ) (videoDesc : VideoCodec) :
    Outcome OutputStream × OutputFile σ :=
  let s1 := s.afterCall (ad.addAVStream s._formatContext videoDesc.codec) (.addAVStream videoDesc.codec)
  if (ad.addAVStream s._formatContext videoDesc.codec).2 then
    OutputFile.pushOutputStream ad
      { s1 with _formatContext := ad.setVideoFields s1._formatContext videoDesc }
  else (.threw .adapterError, s1)

/-- The function `OutputFile::addAudioStream` (lines 70-92). -/
def OutputFile.addAudioStream (ad : FormatContext σ) (s : OutputFile σ) (audioDesc : AudioCodec) :
    Outcome OutputStream × OutputFile σ :=
  let s1 := s.afterCall (ad.addAVStream s._formatContext audioDesc.codec) (.addAVStream audioDesc.codec)
  if (ad.addAVStream s._formatContext audioDesc.codec).2 then
    OutputFile.pushOutputStream ad
      { s1 with _formatContext := ad.setAudioFields s1._formatContext audioDesc }
  else (.threw .adapterError, s1)

/-- The function `OutputFile::addDataStream` (lines 94-102). -/
def OutputFile.addDataStream (ad : FormatContext σ) (s : OutputFile σ) (dataDesc : DataCodec) :
    Outcome OutputStream × OutputFile σ :=
  let s1 := s.afterCall (ad.addAVStream s._formatContext dataDesc.codec) (.addAVStream dataDesc.codec)
  if (ad.addAVStream s._formatContext dataDesc.codec).2 then OutputFile.pushOutputStream ad s1
  else (.threw .adapterError, s1)

/-- The function `OutputFile::getStream` (lines 104-109). -/
def OutputFile.getStream (s : OutputFile σ) (streamIndex : Nat) : Outcome OutputStream :=
  if h : s._outputStreams.length ≤ streamIndex then
    .threw (.runtimeError "unable to get output stream (out of range)")
  else .returned (s._outputStreams.get ⟨streamIndex, Nat.lt_of_not_le h⟩)

/-- The function `OutputFile::getFilename` (lines 111-114). -/
def OutputFile.getFilename (ad : FormatContext σ) (s : OutputFile σ) : String :=
  ad.getFilename s._formatContext

/-! ## Format options -/

/-- One turn of the loop of `setupWrappingOptions` (lines 248-263). -/
def OutputFile.setupWrappingOption (env : Env) (ad : FormatContext σ) (s : OutputFile σ)
    (it : String × String) : OutputFile σ :=
  if env.isReserved it.1 then s
  else
    let s1 := s.afterCall (ad.setOption s._formatContext it.1 it.2) (.setOption it.1 it.2)
    if (ad.setOption s._formatContext it.1 it.2).2 then s1
    else { s1 with _profile := s1._profile.set it.1 it.2 }

/-- The function `OutputFile::setupWrappingOptions` (lines 243-265). -/
def OutputFile.setupWrappingOptions (env : Env) (ad : FormatContext σ) (s : OutputFile σ)
    (profile : Profile) : OutputFile σ :=
  profile.entries.foldl (OutputFile.setupWrappingOption env ad) s

/-- One turn of the loop of `setupRemainingWrappingOptions` (lines 272-286). -/
def OutputFile.setupRemainingWrappingOption (env : Env) (ad : FormatContext σ) (s : OutputFile σ)
    (it : String × String) : OutputFile σ :=
  if env.isReserved it.1 then s
  else s.afterCall (ad.setOption s._formatContext it.1 it.2) (.setOption it.1 it.2)

/-- The function `OutputFile::setupRemainingWrappingOptions` (lines 267-288). -/
def OutputFile.setupRemainingWrappingOptions (env : Env) (ad : FormatContext σ) (s : OutputFile σ) :
    OutputFile σ :=
  s._profile.entries.foldl (OutputFile.setupRemainingWrappingOption env ad) s

/-- The function `OutputFile::setupWrapping` (lines 215-241). -/
def OutputFile.setupWrapping (env : Env) (ad : FormatContext σ) (s : OutputFile σ)
    (profile : Profile) : Outcome Unit × OutputFile σ :=
  if !env.checkFormatProfile profile then
    (.threw (.runtimeError "Invalid format profile to setup wrapping."), s)
  else
    match profile.find env.avProfileFormat with
    | none => (.threw .endIteratorDereferenced, s)
    | some format =>
      if !env.matchFormat format (s.getFilename ad) then
        (.threw (.runtimeError "Invalid format according to the file extension."), s)
      else
        let s1 := s.afterCall (ad.setOutputFormat s._formatContext (s.getFilename ad) format "")
          (.setOutputFormat (s.getFilename ad) format "")
        if (ad.setOutputFormat s._formatContext (s.getFilename ad) format "").2 then
          (.returned (), OutputFile.setupWrappingOptions env ad s1 profile)
        else (.threw .adapterError, s1)

/-! ## The wrapping cycle -/

/-- The function `OutputFile::beginWrap` (lines 146-160). -/
def OutputFile.beginWrap (env : Env) (ad : FormatContext σ) (s : OutputFile σ) :
    Outcome Bool × OutputFile σ :=
  let s1 := s.afterCall (ad.openRessource s._formatContext (s.getFilename ad))
    (.openRessource (s.getFilename ad))
  if (ad.openRessource s._formatContext (s.getFilename ad)).2 then
    let s2 := s1.afterCall (ad.writeHeader s1._formatContext) .writeHeader
    if (ad.writeHeader s1._formatContext).2 then
      let s3 := OutputFile.setupRemainingWrappingOptions env ad s2
      (.returned true, { s3 with _frameCount := List.replicate s3._outputStreams.length 0 })
    else (.threw .adapterError, s2)
  else (.threw .adapterError, s1)

/-- The packet built by `wrap` (lines 169-173). -/
def wrapPacket (data : CodedData) (streamIndex : Nat) : AVPacket :=
  ⟨toInt32 streamIndex, data.getData, toInt32 data.getSize⟩

/-- The function `OutputFile::wrap` (lines 162-191).  Line 167 hands
`_frameCount.at( streamIndex )` to `LOG_DEBUG`; line 180 reads
`_outputStreams.at( streamIndex )` and line 188 `_frameCount.at( streamIndex )`. -/
def OutputFile.wrap (env : Env) (ad : FormatContext σ) (s : OutputFile σ) (data : CodedData)
    (streamIndex : Nat) : Outcome EWrappingStatus × OutputFile σ :=
  if data.getSize = 0 then (.returned .eWrappingSuccess, s)
  else if env.logDebugEvaluates && decide (s._frameCount.length ≤ streamIndex) then
    (.threw .outOfRange, s)
  else
    let packet := wrapPacket data streamIndex
    let s1 := s.afterCall (ad.writeFrame s._formatContext packet) (.writeFrame packet)
    if (ad.writeFrame s._formatContext packet).2 then
      match s1._outputStreams[streamIndex]? with
      | none => (.threw .outOfRange, s1)
      | some outputStream =>
        let currentStreamDuration := ad.getStreamDuration s1._formatContext outputStream._streamIndex
        if currentStreamDuration < s1._previousProcessedStreamDuration then
          (.returned .eWrappingWaitingForData, s1)
        else
          let s2 := { s1 with _previousProcessedStreamDuration := currentStreamDuration }
          match s2._frameCount[streamIndex]? with
          | none => (.threw .outOfRange, s2)
          | some n => (.returned .eWrappingSuccess,
              { s2 with _frameCount := s2._frameCount.set streamIndex (n + 1) })
    else (.threw .adapterError, s1)

/-- The function `OutputFile::endWrap` (lines 193-200). -/
def OutputFile.endWrap (ad : FormatContext σ) (s : OutputFile σ) : Outcome Bool × OutputFile σ :=
  let s1 := s.afterCall (ad.writeTrailer s._formatContext) .writeTrailer
  if (ad.writeTrailer s._formatContext).2 then
    let s2 := s1.afterCall (ad.closeRessource s1._formatContext) .closeRessource
    if (ad.closeRessource s1._formatContext).2 then (.returned true, s2)
    else (.threw .adapterError, s2)
  else (.threw .adapterError, s1)

/-- The function `OutputFile::addMetadata( key, value )` (lines 210-213). -/
def OutputFile.addMetadata (ad : FormatContext σ) (s : OutputFile σ) (key value : String) :
    Outcome Unit × OutputFile σ :=
  let s1 := s.afterCall (ad.addMetaData s._formatContext key value) (.addMetaData key value)
  if (ad.addMetaData s._formatContext key value).2 then (.returned (), s1)
  else (.threw .adapterError, s1)

/-- The function `OutputFile::addMetadata( data )` (lines 202-208): the pairs are
forwarded in order until one raises. -/
def OutputFile.addMetadataVector (ad : FormatContext σ) (s : OutputFile σ) :
    List (String × String) → Outcome Unit × OutputFile σ
  | [] => (.returned (), s)
  | it :: rest =>
    match OutputFile.addMetadata ad s it.1 it.2 with
    | (.returned _, s1) => OutputFile.addMetadataVector ad s1 rest
    | (.threw e, s1) => (.threw e, s1)

/-! ## Sequences of calls -/

/-- A registration request for one of the three registration functions. -/
inductive StreamDesc where
  | video (videoDesc : VideoCodec)
  | audio (audioDesc : AudioCodec)
  | data (dataDesc : DataCodec)
  deriving DecidableEq, Repr

/-- One registration, through the function of its kind. -/
def OutputFile.addStream (ad : FormatContext σ) (s : OutputFile σ) :
    StreamDesc → Outcome OutputStream × OutputFile σ
  | .video d => OutputFile.addVideoStream ad s d
  | .audio d => OutputFile.addAudioStream ad s d
  | .data d => OutputFile.addDataStream ad s d

/-- Registrations in order: the descriptors returned and the final state, or
`none` when one of the registrations raises. -/
def OutputFile.addStreams (ad : FormatContext σ) :
    OutputFile σ → List StreamDesc → Option (List OutputStream × OutputFile σ)
  | s, [] => some ([], s)
  | s, d :: ds =>
    match OutputFile.addStream ad s d with
    | (.returned h, s1) => (OutputFile.addStreams ad s1 ds).map (fun r => (h :: r.1, r.2))
    | (.threw _, _) => none

/-- A call of a public member function of `OutputFile`. -/
inductive Op where
  | addStream (desc : StreamDesc)
  | getStream (streamIndex : Nat)
  | setupWrapping (profile : Profile)
  | beginWrap
  | wrap (data : CodedData) (streamIndex : Nat)
  | endWrap
  | addMetadata (key value : String)
  | addMetadataVector (data : List (String × String))

/-- The state left by one call, whether it returned or raised. -/
def OutputFile.exec (env : Env) (ad : FormatContext σ) (s : OutputFile σ) : Op → OutputFile σ
  | .addStream desc => (OutputFile.addStream ad s desc).2
  | .getStream _ => s
  | .setupWrapping profile => (OutputFile.setupWrapping env ad s profile).2
  | .beginWrap => (OutputFile.beginWrap env ad s).2
  | .wrap data streamIndex => (OutputFile.wrap env ad s data streamIndex).2
  | .endWrap => (OutputFile.endWrap ad s).2
  | .addMetadata key value => (OutputFile.addMetadata ad s key value).2
  | .addMetadataVector data => (OutputFile.addMetadataVector ad s data).2

/-- The state left by a sequence of calls. -/
def OutputFile.run (env : Env) (ad : FormatContext σ) (s : OutputFile σ) (ops : List Op) :
    OutputFile σ :=
  ops.foldl (OutputFile.exec env ad) s

/-- The states left by the successive calls of a sequence of `wrap` calls. -/
def OutputFile.wrapStates (env : Env) (ad : FormatContext σ) :
    OutputFile σ → List (CodedData × Nat) → List (OutputFile σ)
  | _, [] => []
  | s, c :: cs =>
    (OutputFile.wrap env ad s c.1 c.2).2 ::
      OutputFile.wrapStates env ad (OutputFile.wrap env ad s c.1 c.2).2 cs

/-- The state left by a sequence of `wrap` calls. -/
def OutputFile.wrapAll (env : Env) (ad : FormatContext σ) (s : OutputFile σ)
    (cs : List (CodedData × Nat)) : OutputFile σ :=
  cs.foldl (fun t c => (OutputFile.wrap env ad t c.1 c.2).2) s

/-- The watermark is the greatest accumulated duration of the registered
streams, the duration of a stream being the one its descriptor reports: no
registered stream has a duration above the watermark, and one has exactly the
watermark as duration. -/
def OutputFile.WatermarkIsMax (ad : FormatContext σ) (s : OutputFile σ) : Prop :=
  (∀ (j : Nat) (os : OutputStream), s._outputStreams[j]? = some os →
    ad.getStreamDuration s._formatContext os._streamIndex ≤ s._previousProcessedStreamDuration) ∧
  (∃ (j : Nat) (os : OutputStream), s._outputStreams[j]? = some os ∧
    ad.getStreamDuration s._formatContext os._streamIndex = s._previousProcessedStreamDuration)

/-- What is assumed of the durations reported for the registered streams
`streams`: writing a packet lowers the duration of no stream, and a packet
written by `wrap` for the registered stream at position `i` leaves the duration
of the stream at any other position as it was. -/
def FormatContext.DurationContract (ad : FormatContext σ) (streams : List OutputStream) : Prop :=
  (∀ (a : σ) (pkt : AVPacket) (j : Nat) (os : OutputStream), streams[j]? = some os →
    ad.getStreamDuration a os._streamIndex
      ≤ ad.getStreamDuration (ad.writeFrame a pkt).1 os._streamIndex) ∧
  (∀ (a : σ) (data : CodedData) (i j : Nat) (os : OutputStream), i < streams.length → j ≠ i →
    streams[j]? = some os →
    ad.getStreamDuration (ad.writeFrame a (wrapPacket data i)).1 os._streamIndex
      = ad.getStreamDuration a os._streamIndex)

/-- A packet that the adapter rejects changes the duration of no registered
stream. -/
def FormatContext.RejectionKeepsDurations (ad : FormatContext σ) (streams : List OutputStream) :
    Prop :=
  ∀ (a : σ) (pkt : AVPacket) (j : Nat) (os : OutputStream), streams[j]? = some os →
    (ad.writeFrame a pkt).2 = false →
    ad.getStreamDuration (ad.writeFrame a pkt).1 os._streamIndex
      = ad.getStreamDuration a os._streamIndex

/-- The option attempts of a list of adapter calls. -/
def optionCalls (evs : List Event) : List Call :=
  (evs.map Event.call).filter (fun c => match c with | .setOption _ _ => true | _ => false)

/-- The calls of a list of events that set the option `key`. -/
def optionCallsFor (key : String) (evs : List Event) : List Call :=
  (evs.map Event.call).filter (fun c => match c with | .setOption k _ => k == key | _ => false)

/-- The adapter counts its streams: a successful `addAVStream` raises the
stream count by one, and the writes into the fields of the new stream leave the
count as it is. -/
def FormatContext.CountsStreams (ad : FormatContext σ) : Prop :=
  (∀ a codec, (ad.addAVStream a codec).2 = true →
    ad.getNbStreams (ad.addAVStream a codec).1 = ad.getNbStreams a + 1) ∧
  (∀ a d, ad.getNbStreams (ad.setVideoFields a d) = ad.getNbStreams a) ∧
  (∀ a d, ad.getNbStreams (ad.setAudioFields a d) = ad.getNbStreams a)

/-- The descriptors are in step with the adapter: there are as many as the
adapter has streams, and the descriptor at position `i` has index `i`. -/
def OutputFile.InStep (ad : FormatContext σ) (s : OutputFile σ) : Prop :=
  ad.getNbStreams s._formatContext = s._outputStreams.length ∧
  ∀ (i : Nat) (os : OutputStream), s._outputStreams[i]? = some os → os._streamIndex = i

/-- The four reserved profile keys. -/
def Env.reservedKeys (env : Env) : List String :=
  [env.avProfileIdentificator, env.avProfileIdentificatorHuman, env.avProfileType,
    env.avProfileFormat]

/-- No reserved key is pending and no option attempt handed to the adapter has
a reserved key. -/
def OutputFile.NoReserved (env : Env) (s : OutputFile σ) : Prop :=
  (∀ e ∈ s._profile.entries, e.1 ∉ env.reservedKeys) ∧
  (∀ ev ∈ s.calls, ∀ k v, ev.call = Call.setOption k v → k ∉ env.reservedKeys)

/-! ## A small adapter, for concrete runs -/

/-- State of the sample adapter: the file name, whether the resource is open,
and the accumulated duration of each stream. -/
structure SampleContext where
  filename : String
  opened : Bool
  durations : List Int
  deriving DecidableEq

/-- Adds `d` to the entry at position `i` of a list of durations. -/
def advance : List Int → Nat → Int → List Int
  | [], _, _ => []
  | x :: xs, 0, d => (x + d) :: xs
  | x :: xs, i + 1, d => x :: advance xs i d

/-- A sample adapter.  A packet advances the duration of its stream by the
number of its bytes and is rejected when the stream does not exist; the option `threads` can always
be set, `movflags` only once the resource is open, any other option never. -/
def sampleAdapter : FormatContext SampleContext where
  setFilename a f := { a with filename := f }
  setOutputFormat a _ _ _ := (a, true)
  getFilename a := a.filename
  addAVStream a _ := ({ a with durations := a.durations ++ [0] }, true)
  setVideoFields a _ := a
  setAudioFields a _ := a
  getNbStreams a := a.durations.length
  openRessource a _ := ({ a with opened := true }, true)
  writeHeader a := (a, a.opened)
  writeFrame a pkt :=
    if 0 ≤ pkt.stream_index ∧ pkt.stream_index.toNat < a.durations.length then
      ({ a with durations := advance a.durations pkt.stream_index.toNat pkt.data.length }, true)
    else (a, false)
  writeTrailer a := (a, a.opened)
  closeRessource a := ({ a with opened := false }, true)
  setOption a k _ := (a, k == "threads" || (a.opened && k == "movflags"))
  addMetaData a _ _ := (a, true)
  getStreamDuration a i := ((a.durations.getD i 0 : Int) : ℚ)

/-- A sample environment: the reserved keys, a profile check asking for the
format key, a format match accepting everything, and `LOG_DEBUG` evaluating its
operands. -/
def sampleEnv : Env where
  avProfileIdentificator := "avProfileIdentificator"
  avProfileIdentificatorHuman := "avProfileIdentificatorHuman"
  avProfileType := "avProfileType"
  avProfileFormat := "avProfileFormat"
  checkFormatProfile p := (p.find "avProfileFormat").isSome
  matchFormat _ _ := true
  logDebugEvaluates := true

/-- The sample adapter before the constructor runs. -/
def sampleContext : SampleContext := ⟨"", false, []⟩

/-- A buffer of `n` bytes. -/
def bytes (n : Nat) : CodedData := ⟨List.replicate n 0⟩

/-- The state of a new wrapper of `out.mp4` on the sample adapter. -/
def sampleNew : OutputFile SampleContext :=
  match OutputFile.new sampleAdapter sampleContext "out.mp4" "mp4" "" with
  | .returned s => s
  | .threw _ => ⟨sampleContext, [], [], 0, Profile.empty, []⟩

/-- The sample wrapper with a video stream A and an audio stream B registered,
after `beginWrap`. -/
def sampleOpen : OutputFile SampleContext :=
  OutputFile.run sampleEnv sampleAdapter sampleNew
    [.addStream (.video ⟨"h264", 16, 16, 0, 0, 0, 0, [], 0, ⟨1, 30⟩, 1⟩),
     .addStream (.audio ⟨"aac", 48000, 2, 3, 1, 1024, ⟨1, 48000⟩⟩),
     .beginWrap]

/-- The open sample wrapper after stream A received a packet of 10 bytes. -/
def sampleA10 : OutputFile SampleContext :=
  (OutputFile.wrap sampleEnv sampleAdapter sampleOpen (bytes 10) 0).2

/-- The sample wrapper after stream B then received a packet of 5 bytes. -/
def sampleB5 : OutputFile SampleContext :=
  (OutputFile.wrap sampleEnv sampleAdapter sampleA10 (bytes 5) 1).2

/-- A second adapter, like the sample adapter except that it rejects every
packet, after having advanced the duration of the stream of the packet. -/
def rejectingAdapter : FormatContext SampleContext :=
  { sampleAdapter with
    writeFrame := fun a pkt =>
      if 0 ≤ pkt.stream_index ∧ pkt.stream_index.toNat < a.durations.length then
        ({ a with durations := advance a.durations pkt.stream_index.toNat pkt.data.length }, false)
      else (a, false) }

/-- The state of a new wrapper of `out.mp4` on the rejecting adapter. -/
def rejectingNew : OutputFile SampleContext :=
  match OutputFile.new rejectingAdapter sampleContext "out.mp4" "mp4" "" with
  | .returned s => s
  | .threw _ => ⟨sampleContext, [], [], 0, Profile.empty, []⟩

/-- The wrapper on the rejecting adapter with a video stream A and an audio
stream B registered, after `beginWrap`. -/
def rejectingOpen : OutputFile SampleContext :=
  OutputFile.run sampleEnv rejectingAdapter rejectingNew
    [.addStream (.video ⟨"h264", 16, 16, 0, 0, 0, 0, [], 0, ⟨1, 30⟩, 1⟩),
     .addStream (.audio ⟨"aac", 48000, 2, 3, 1, 1024, ⟨1, 48000⟩⟩),
     .beginWrap]

/-- A sample profile: the format key, an option that needs the open resource,
an option the sample adapter never accepts, and an option it always accepts. -/
def sampleProfile : Profile :=
  ⟨[("avProfileFormat", "mp4"), ("movflags", "faststart"), ("bogus", "1"), ("threads", "4")],
    by decide⟩

/-! ## Shared lemmas -/

/-- A call of `wrap` never lowers the watermark, however it ends. -/
theorem OutputFile.watermark_le_wrap (env : Env) (ad : FormatContext σ) (s : OutputFile σ)
    (data : CodedData) (streamIndex : Nat) :
    s._previousProcessedStreamDuration ≤
      (OutputFile.wrap env ad s data streamIndex).2._previousProcessedStreamDuration := by
  unfold OutputFile.wrap
  by_cases h1 : data.getSize = 0
  · simp [h1]
  by_cases h2 : (env.logDebugEvaluates && decide (s._frameCount.length ≤ streamIndex)) = true
  · simp [h1, h2]
  by_cases h3 : (ad.writeFrame s._formatContext (wrapPacket data streamIndex)).2 = true
  · simp only [h1, h2, h3, if_true, if_false, OutputFile.afterCall]
    cases hs : s._outputStreams[streamIndex]? with
    | none => simp
    | some os =>
      by_cases h4 : ad.getStreamDuration (ad.writeFrame s._formatContext
          (wrapPacket data streamIndex)).1 os._streamIndex < s._previousProcessedStreamDuration
      · simp [h4]
      · simp only [h4, if_false]
        cases s._frameCount[streamIndex]? <;> exact not_lt.mp h4
  · simp [h1, h2, h3, OutputFile.afterCall]

/-- A new wrapper has no stream, no frame counter, watermark 0, no pending
option, and has handed two calls to the adapter. -/
theorem OutputFile.new_returned (ad : FormatContext σ) (a : σ) (filename formatName mimeType : String)
    (s0 : OutputFile σ) (hnew : OutputFile.new ad a filename formatName mimeType = .returned s0) :
    s0._outputStreams = [] ∧ s0._frameCount = [] ∧ s0._previousProcessedStreamDuration = 0 ∧
    s0._profile.entries = [] ∧
    s0.calls = [⟨.setFilename filename, true⟩, ⟨.setOutputFormat filename formatName mimeType, true⟩] := by
  unfold OutputFile.new at hnew
  by_cases h : (ad.setOutputFormat (ad.setFilename a filename) filename formatName mimeType).2 = true
  · simp only [h, if_true, Outcome.returned.injEq] at hnew
    subst hnew
    simp [OutputFile.afterCall, Profile.empty, h]
  · simp [h] at hnew

/-- A successful registration appends the descriptor it returns, whose index
is the number of streams registered before, and keeps the descriptors in step
with an adapter that counts its streams. -/
theorem OutputFile.addStream_returned (ad : FormatContext σ) (hc : ad.CountsStreams)
    (s s1 : OutputFile σ) (d : StreamDesc) (h : OutputStream) (hs : s.InStep ad)
    (hadd : OutputFile.addStream ad s d = (.returned h, s1)) :
    s1._outputStreams = s._outputStreams ++ [h] ∧ h._streamIndex = s._outputStreams.length ∧
    s1.InStep ad := by
  obtain ⟨hc1, hc2, hc3⟩ := hc
  obtain ⟨hs1, hs2⟩ := hs
  have key : ∀ (a1 : σ) (cs : List Event), ad.getNbStreams a1 = ad.getNbStreams s._formatContext + 1 →
      (.returned h, s1) = OutputFile.pushOutputStream ad
        { s with _formatContext := a1, calls := cs } →
      s1._outputStreams = s._outputStreams ++ [h] ∧ h._streamIndex = s._outputStreams.length ∧
      s1.InStep ad := by
    intro a1 cs hn hpush
    simp only [OutputFile.pushOutputStream, Prod.mk.injEq, Outcome.returned.injEq] at hpush
    obtain ⟨hh, hs1eq⟩ := hpush
    subst hs1eq
    have hidx : h._streamIndex = s._outputStreams.length := by
      rw [hh]; simp [hn, hs1]
    refine ⟨by rw [hh], hidx, ?_, ?_⟩
    · simp [hn, hs1]
    · intro i os hi
      simp only at hi
      rw [← hh] at hi
      by_cases hlt : i < s._outputStreams.length
      · rw [List.getElem?_append_left hlt] at hi
        exact hs2 i os hi
      · have hge : s._outputStreams.length ≤ i := Nat.le_of_not_lt hlt
        rw [List.getElem?_append_right hge] at hi
        cases hk : i - s._outputStreams.length with
        | zero =>
          rw [hk] at hi
          simp at hi
          subst hi
          omega
        | succ k =>
          rw [hk] at hi
          simp at hi
  cases d with
  | video d =>
    simp only [OutputFile.addStream, OutputFile.addVideoStream] at hadd
    by_cases hok : (ad.addAVStream s._formatContext d.codec).2 = true
    · simp only [hok, if_true, OutputFile.afterCall] at hadd
      exact key _ _ (by rw [hc2, hc1 _ _ hok]) hadd.symm
    · simp [hok] at hadd
  | audio d =>
    simp only [OutputFile.addStream, OutputFile.addAudioStream] at hadd
    by_cases hok : (ad.addAVStream s._formatContext d.codec).2 = true
    · simp only [hok, if_true, OutputFile.afterCall] at hadd
      exact key _ _ (by rw [hc3, hc1 _ _ hok]) hadd.symm
    · simp [hok] at hadd
  | data d =>
    simp only [OutputFile.addStream, OutputFile.addDataStream] at hadd
    by_cases hok : (ad.addAVStream s._formatContext d.codec).2 = true
    · simp only [hok, if_true, OutputFile.afterCall] at hadd
      exact key _ _ (hc1 _ _ hok) hadd.symm
    · simp [hok] at hadd

/-- Successful registrations append the descriptors they return, in order. -/
theorem OutputFile.addStreams_returned (ad : FormatContext σ) (hc : ad.CountsStreams)
    (descs : List StreamDesc) (s s1 : OutputFile σ) (handles : List OutputStream)
    (hs : s.InStep ad) (hreg : OutputFile.addStreams ad s descs = some (handles, s1)) :
    s1._outputStreams = s._outputStreams ++ handles ∧ handles.length = descs.length ∧
    s1.InStep ad := by
  induction descs generalizing s handles with
  | nil =>
    simp only [OutputFile.addStreams, Option.some.injEq, Prod.mk.injEq] at hreg
    obtain ⟨h1, h2⟩ := hreg
    subst h1 h2
    simp [hs]
  | cons d ds ih =>
    simp only [OutputFile.addStreams] at hreg
    cases hadd : OutputFile.addStream ad s d with
    | mk out s2 =>
      cases out with
      | threw e => simp [hadd] at hreg
      | returned h =>
        simp only [hadd] at hreg
        cases hrest : OutputFile.addStreams ad s2 ds with
        | none => simp [hrest] at hreg
        | some r =>
          simp only [hrest, Option.map_some', Option.some.injEq, Prod.mk.injEq] at hreg
          obtain ⟨h1, h2⟩ := hreg
          obtain ⟨e1, e2, e3⟩ := OutputFile.addStream_returned ad hc s s2 d h hs hadd
          obtain ⟨f1, f2, f3⟩ := ih s2 r.1 e3 (by rw [hrest, ← h2])
          subst h1
          refine ⟨by rw [f1, e1]; simp, by simp [f2], f3⟩

/-- The loop of `setupWrappingOptions` changes neither the registered streams,
nor the frame counts, nor the watermark. -/
theorem OutputFile.setupWrappingOptions_frame (env : Env) (ad : FormatContext σ)
    (es : List (String × String)) (s : OutputFile σ) :
    (es.foldl (OutputFile.setupWrappingOption env ad) s)._outputStreams = s._outputStreams ∧
    (es.foldl (OutputFile.setupWrappingOption env ad) s)._frameCount = s._frameCount ∧
    (es.foldl (OutputFile.setupWrappingOption env ad) s)._previousProcessedStreamDuration
      = s._previousProcessedStreamDuration := by
  induction es generalizing s with
  | nil => simp
  | cons e es ih =>
    simp only [List.foldl_cons]
    obtain ⟨h1, h2, h3⟩ := ih (OutputFile.setupWrappingOption env ad s e)
    rw [h1, h2, h3]
    unfold OutputFile.setupWrappingOption
    split_ifs <;> simp [OutputFile.afterCall]

/-- The loop of `setupRemainingWrappingOptions` changes neither the registered
streams, nor the frame counts, nor the watermark, nor the pending options. -/
theorem OutputFile.setupRemainingWrappingOptions_frame (env : Env) (ad : FormatContext σ)
    (es : List (String × String)) (s : OutputFile σ) :
    (es.foldl (OutputFile.setupRemainingWrappingOption env ad) s)._outputStreams
      = s._outputStreams ∧
    (es.foldl (OutputFile.setupRemainingWrappingOption env ad) s)._frameCount = s._frameCount ∧
    (es.foldl (OutputFile.setupRemainingWrappingOption env ad) s)._previousProcessedStreamDuration
      = s._previousProcessedStreamDuration ∧
    (es.foldl (OutputFile.setupRemainingWrappingOption env ad) s)._profile = s._profile := by
  induction es generalizing s with
  | nil => simp
  | cons e es ih =>
    simp only [List.foldl_cons]
    obtain ⟨h1, h2, h3, h4⟩ := ih (OutputFile.setupRemainingWrappingOption env ad s e)
    rw [h1, h2, h3, h4]
    unfold OutputFile.setupRemainingWrappingOption
    split_ifs <;> simp [OutputFile.afterCall]

/-- The calls handed to the adapter by the loop of
`setupRemainingWrappingOptions`: one option attempt for each entry whose key
is not reserved, in the order of the entries. -/
theorem OutputFile.setupRemainingWrappingOptions_calls (env : Env) (ad : FormatContext σ)
    (es : List (String × String)) (t : OutputFile σ) :
    ∃ evs, (es.foldl (OutputFile.setupRemainingWrappingOption env ad) t).calls = t.calls ++ evs ∧
      evs.map Event.call
        = (es.filter (fun e => !env.isReserved e.1)).map (fun e => Call.setOption e.1 e.2) := by
  induction es generalizing t with
  | nil => exact ⟨[], by simp, by simp⟩
  | cons e es ih =>
    simp only [List.foldl_cons]
    obtain ⟨evs, h1, h2⟩ := ih (OutputFile.setupRemainingWrappingOption env ad t e)
    by_cases hr : env.isReserved e.1 = true
    · refine ⟨evs, ?_, ?_⟩
      · rw [h1]; simp [OutputFile.setupRemainingWrappingOption, hr]
      · rw [h2]; simp [List.filter_cons, hr]
    · refine ⟨⟨.setOption e.1 e.2, (ad.setOption t._formatContext e.1 e.2).2⟩ :: evs, ?_, ?_⟩
      · rw [h1]; simp [OutputFile.setupRemainingWrappingOption, hr, OutputFile.afterCall]
      · simp [List.filter_cons, hr, h2]

/-- The calls handed to the adapter by a `beginWrap` that opens the resource and
writes the header: `openRessource`, `writeHeader`, then one option attempt for
each pending option whose key is not reserved. -/
theorem OutputFile.beginWrap_calls (env : Env) (ad : FormatContext σ) (s : OutputFile σ)
    (hopen : (ad.openRessource s._formatContext (s.getFilename ad)).2 = true)
    (hheader : (ad.writeHeader (ad.openRessource s._formatContext (s.getFilename ad)).1).2 = true) :
    ∃ replay, (OutputFile.beginWrap env ad s).2.calls
        = s.calls ++ ⟨.openRessource (s.getFilename ad), true⟩ :: ⟨.writeHeader, true⟩ :: replay ∧
      replay.map Event.call
        = (s._profile.entries.filter (fun e => !env.isReserved e.1)).map
            (fun e => Call.setOption e.1 e.2) := by
  simp only [OutputFile.beginWrap, OutputFile.afterCall, hopen, hheader, if_true,
    OutputFile.setupRemainingWrappingOptions]
  obtain ⟨evs, h1, h2⟩ := OutputFile.setupRemainingWrappingOptions_calls env ad s._profile.entries
    { s with
      _formatContext := (ad.writeHeader (ad.openRessource s._formatContext (s.getFilename ad)).1).1,
      calls := s.calls ++ [⟨.openRessource (s.getFilename ad), true⟩] ++ [⟨.writeHeader, true⟩] }
  refine ⟨evs, ?_, h2⟩
  rw [h1]
  simp

/-- After `m[k] = v` the entry `(k, v)` is in the map. -/
theorem mem_setEntry_self (es : List (String × String)) (k v : String) :
    (k, v) ∈ setEntry es k v := by
  induction es with
  | nil => simp [setEntry]
  | cons e es ih =>
    by_cases h : e.1 = k
    · simp [setEntry, h]
    · simp [setEntry, h, ih]

/-- The assignment `m[k] = v` keeps the entries of the other keys. -/
theorem mem_setEntry_of_ne (es : List (String × String)) (k v k1 v1 : String) (hne : k1 ≠ k)
    (h : (k1, v1) ∈ es) : (k1, v1) ∈ setEntry es k v := by
  induction es with
  | nil => simp at h
  | cons e es ih =>
    by_cases he : e.1 = k
    · simp only [setEntry, he, if_true, List.mem_cons]
      rcases List.mem_cons.mp h with h1 | h1
      · exact absurd (by rw [← h1] at he; exact he) hne
      · exact Or.inr h1
    · simp only [setEntry, he, if_false, List.mem_cons]
      rcases List.mem_cons.mp h with h1 | h1
      · exact Or.inl h1
      · exact Or.inr (ih h1)

/-- An entry of the map after `m[k] = v` was there before or is `(k, v)`. -/
theorem mem_setEntry (es : List (String × String)) (k v : String) (e : String × String)
    (h : e ∈ setEntry es k v) : e ∈ es ∨ e = (k, v) := by
  induction es with
  | nil => simpa [setEntry] using h
  | cons e1 es ih =>
    by_cases he : e1.1 = k
    · simp only [setEntry, he, if_true, List.mem_cons] at h
      rcases h with h1 | h1
      · exact Or.inr h1
      · exact Or.inl (List.mem_cons_of_mem _ h1)
    · simp only [setEntry, he, if_false, List.mem_cons] at h
      rcases h with h1 | h1
      · exact Or.inl (by rw [h1]; exact List.mem_cons_self _ _)
      · rcases ih h1 with h2 | h2
        · exact Or.inl (List.mem_cons_of_mem _ h2)
        · exact Or.inr h2

/-- The loop of `setupWrappingOptions` keeps the pending entries whose key is
not a key of the profile it is given. -/
theorem OutputFile.setupWrappingOptions_keeps (env : Env) (ad : FormatContext σ)
    (es : List (String × String)) (s : OutputFile σ) (k v : String)
    (hk : k ∉ entryKeys es) (hmem : (k, v) ∈ s._profile.entries) :
    (k, v) ∈ (es.foldl (OutputFile.setupWrappingOption env ad) s)._profile.entries := by
  induction es generalizing s with
  | nil => exact hmem
  | cons e es ih =>
    simp only [entryKeys, List.map_cons, List.mem_cons, not_or] at hk
    simp only [List.foldl_cons]
    apply ih _ hk.2
    unfold OutputFile.setupWrappingOption
    split_ifs
    · exact hmem
    · exact hmem
    · exact mem_setEntry_of_ne _ _ _ _ _ hk.1 hmem

/-- The calls handed to the adapter by the loop of `setupWrappingOptions`, for a
profile with one entry per key: they are option attempts for entries of the
profile whose key is not reserved, and an entry whose attempt failed is
pending afterwards. -/
theorem OutputFile.setupWrappingOptions_pending (env : Env) (ad : FormatContext σ)
    (es : List (String × String)) (hnd : (entryKeys es).Nodup) (s : OutputFile σ) :
    ∃ evs, (es.foldl (OutputFile.setupWrappingOption env ad) s).calls = s.calls ++ evs ∧
      (∀ k v, (⟨.setOption k v, false⟩ : Event) ∈ evs →
        (k, v) ∈ (es.foldl (OutputFile.setupWrappingOption env ad) s)._profile.entries) ∧
      (∀ ev ∈ evs, ∃ e ∈ es, ev.call = .setOption e.1 e.2 ∧ env.isReserved e.1 = false) := by
  induction es generalizing s with
  | nil => exact ⟨[], by simp, by simp, by simp⟩
  | cons e es ih =>
    simp only [entryKeys, List.map_cons, List.nodup_cons] at hnd
    simp only [List.foldl_cons]
    obtain ⟨evs, h1, h2, h3⟩ := ih hnd.2 (OutputFile.setupWrappingOption env ad s e)
    by_cases hr : env.isReserved e.1 = true
    · refine ⟨evs, ?_, ?_, ?_⟩
      · rw [h1]; simp [OutputFile.setupWrappingOption, hr]
      · exact h2
      · intro ev hev
        obtain ⟨e1, he1, hc⟩ := h3 ev hev
        exact ⟨e1, List.mem_cons_of_mem _ he1, hc⟩
    · refine ⟨⟨.setOption e.1 e.2, (ad.setOption s._formatContext e.1 e.2).2⟩ :: evs, ?_, ?_, ?_⟩
      · rw [h1]
        unfold OutputFile.setupWrappingOption
        split_ifs <;> simp [OutputFile.afterCall]
      · intro k v hmem
        rcases List.mem_cons.mp hmem with h0 | h0
        · simp only [Event.mk.injEq, Call.setOption.injEq] at h0
          obtain ⟨⟨hk, hv⟩, hok⟩ := h0
          apply OutputFile.setupWrappingOptions_keeps env ad es _ k v (by rw [hk]; exact hnd.1)
          have hok2 : ¬ (ad.setOption s._formatContext e.1 e.2).2 = true := by
            rw [← hok]; simp
          simp only [OutputFile.setupWrappingOption, hr, hok2, if_false, Profile.set,
            OutputFile.afterCall]
          rw [hk, hv]
          exact mem_setEntry_self _ _ _
        · exact h2 k v h0
      · intro ev hev
        rcases List.mem_cons.mp hev with h0 | h0
        · exact ⟨e, List.mem_cons_self _ _, by rw [h0], by simpa using hr⟩
        · obtain ⟨e1, he1, hc⟩ := h3 ev h0
          exact ⟨e1, List.mem_cons_of_mem _ he1, hc⟩

/-- Among the option attempts made for a map, none sets a key the map does not
have. -/
theorem optionAttempts_absent (env : Env) (es : List (String × String)) (k : String)
    (hk : k ∉ entryKeys es) :
    (((es.filter (fun e => !env.isReserved e.1)).map (fun e => Call.setOption e.1 e.2)).filter
      (fun c => match c with | .setOption k1 _ => k1 == k | _ => false)) = [] := by
  induction es with
  | nil => simp
  | cons e es ih =>
    simp only [entryKeys, List.map_cons, List.mem_cons, not_or] at hk
    by_cases hr : env.isReserved e.1 = true
    · simp only [List.filter_cons, hr, Bool.not_true, Bool.false_eq_true, if_false]
      exact ih hk.2
    · have hne : (e.1 == k) = false := by
        simpa using fun c => hk.1 c.symm
      simp only [List.filter_cons, hr, Bool.not_eq_true, Bool.not_false, if_true, List.map_cons,
        hne, Bool.false_eq_true, if_false]
      simpa [List.filter_cons] using ih hk.2

/-- Among the option attempts made for a map with one entry per key, exactly
one sets a given key that is not reserved, with the value of its entry. -/
theorem optionAttempts_present (env : Env) (es : List (String × String)) (k v : String)
    (hnd : (entryKeys es).Nodup) (hr : env.isReserved k = false) (hmem : (k, v) ∈ es) :
    (((es.filter (fun e => !env.isReserved e.1)).map (fun e => Call.setOption e.1 e.2)).filter
      (fun c => match c with | .setOption k1 _ => k1 == k | _ => false))
      = [Call.setOption k v] := by
  induction es with
  | nil => simp at hmem
  | cons e es ih =>
    simp only [entryKeys, List.map_cons, List.nodup_cons] at hnd
    rcases List.mem_cons.mp hmem with h0 | h0
    · subst h0
      have hrest := optionAttempts_absent env es k hnd.1
      simp only [List.filter_cons, hr, Bool.not_false, if_true, List.map_cons, beq_self_eq_true]
      simpa [List.filter_cons] using hrest
    · have hkin : k ∈ List.map Prod.fst es := List.mem_map.mpr ⟨(k, v), h0, rfl⟩
      have hne : (e.1 == k) = false := by
        simpa using fun c : e.1 = k => hnd.1 (by rw [c]; exact hkin)
      by_cases hre : env.isReserved e.1 = true
      · simp only [List.filter_cons, hre, Bool.not_true, Bool.false_eq_true, if_false]
        exact ih hnd.2 h0
      · simp only [List.filter_cons, hre, Bool.not_eq_true, Bool.not_false, if_true,
          List.map_cons, hne, Bool.false_eq_true, if_false]
        simpa [List.filter_cons] using ih hnd.2 h0

/-- What `beginWrap` does when the adapter opens the resource and writes the
header: it returns `true`, keeps the registered streams and the watermark, and
sets one frame counter per registered stream, at 0. -/
theorem OutputFile.beginWrap_returned (env : Env) (ad : FormatContext σ) (s : OutputFile σ)
    (hopen : (ad.openRessource s._formatContext (s.getFilename ad)).2 = true)
    (hheader : (ad.writeHeader (ad.openRessource s._formatContext (s.getFilename ad)).1).2 = true) :
    (OutputFile.beginWrap env ad s).1 = .returned true ∧
    (OutputFile.beginWrap env ad s).2._outputStreams = s._outputStreams ∧
    (OutputFile.beginWrap env ad s).2._frameCount = List.replicate s._outputStreams.length 0 ∧
    (OutputFile.beginWrap env ad s).2._previousProcessedStreamDuration
      = s._previousProcessedStreamDuration := by
  simp only [OutputFile.beginWrap, OutputFile.afterCall, hopen, hheader, if_true,
    OutputFile.setupRemainingWrappingOptions]
  refine ⟨trivial, ?_, ?_, ?_⟩
  · rw [(OutputFile.setupRemainingWrappingOptions_frame env ad _ _).1]
  · rw [(OutputFile.setupRemainingWrappingOptions_frame env ad _ _).1]
  · rw [(OutputFile.setupRemainingWrappingOptions_frame env ad _ _).2.2.1]

/-- However `beginWrap` ends, it keeps the registered streams and leaves at most
one frame counter per registered stream if that was so before. -/
theorem OutputFile.beginWrap_counts (env : Env) (ad : FormatContext σ) (s : OutputFile σ)
    (h : s._frameCount.length ≤ s._outputStreams.length) :
    (OutputFile.beginWrap env ad s).2._frameCount.length
      ≤ (OutputFile.beginWrap env ad s).2._outputStreams.length := by
  by_cases hopen : (ad.openRessource s._formatContext (s.getFilename ad)).2 = true
  · by_cases hheader :
        (ad.writeHeader (ad.openRessource s._formatContext (s.getFilename ad)).1).2 = true
    · obtain ⟨_, h2, h3, _⟩ := OutputFile.beginWrap_returned env ad s hopen hheader
      rw [h2, h3]
      simp
    · simp only [OutputFile.beginWrap, OutputFile.afterCall, hopen, hheader, if_true]
      simpa using h
  · simp only [OutputFile.beginWrap, OutputFile.afterCall, hopen]
    simpa using h

/-- However `wrap` ends, it keeps the registered streams and the number of frame
counters. -/
theorem OutputFile.wrap_frame (env : Env) (ad : FormatContext σ) (s : OutputFile σ)
    (data : CodedData) (streamIndex : Nat) :
    (OutputFile.wrap env ad s data streamIndex).2._outputStreams = s._outputStreams ∧
    (OutputFile.wrap env ad s data streamIndex).2._frameCount.length = s._frameCount.length ∧
    (OutputFile.wrap env ad s data streamIndex).2._profile = s._profile := by
  unfold OutputFile.wrap
  by_cases h1 : data.getSize = 0
  · simp [h1]
  by_cases h2 : (env.logDebugEvaluates && decide (s._frameCount.length ≤ streamIndex)) = true
  · simp [h1, h2]
  by_cases h3 : (ad.writeFrame s._formatContext (wrapPacket data streamIndex)).2 = true
  · simp only [h1, h2, h3, if_true, if_false, OutputFile.afterCall]
    cases hs : s._outputStreams[streamIndex]? with
    | none => simp
    | some os =>
      by_cases h4 : ad.getStreamDuration (ad.writeFrame s._formatContext
          (wrapPacket data streamIndex)).1 os._streamIndex < s._previousProcessedStreamDuration
      · simp [h4]
      · simp only [h4, if_false]
        cases s._frameCount[streamIndex]? <;> simp
  · simp [h1, h2, h3, OutputFile.afterCall]

/-- However `addMetadata( data )` ends, it changes only the adapter and the calls
handed to it. -/
theorem OutputFile.addMetadataVector_frame (ad : FormatContext σ) (data : List (String × String))
    (s : OutputFile σ) :
    (OutputFile.addMetadataVector ad s data).2._outputStreams = s._outputStreams ∧
    (OutputFile.addMetadataVector ad s data).2._frameCount = s._frameCount ∧
    (OutputFile.addMetadataVector ad s data).2._profile = s._profile := by
  induction data generalizing s with
  | nil => simp [OutputFile.addMetadataVector]
  | cons it rest ih =>
    simp only [OutputFile.addMetadataVector, OutputFile.addMetadata, OutputFile.afterCall]
    by_cases h : (ad.addMetaData s._formatContext it.1 it.2).2 = true
    · simp only [h, if_true]
      obtain ⟨h1, h2, h3⟩ := ih { s with
        _formatContext := (ad.addMetaData s._formatContext it.1 it.2).1,
        calls := s.calls ++ [⟨.addMetaData it.1 it.2, true⟩] }
      exact ⟨h1, h2, h3⟩
    · simp [h]

/-- No call leaves more frame counters than registered streams. -/
theorem OutputFile.exec_counts (env : Env) (ad : FormatContext σ) (s : OutputFile σ) (op : Op)
    (h : s._frameCount.length ≤ s._outputStreams.length) :
    (OutputFile.exec env ad s op)._frameCount.length
      ≤ (OutputFile.exec env ad s op)._outputStreams.length := by
  cases op with
  | addStream desc =>
    cases desc with
    | video d =>
      simp only [OutputFile.exec, OutputFile.addStream, OutputFile.addVideoStream,
        OutputFile.pushOutputStream, OutputFile.afterCall]
      split_ifs <;> simp <;> omega
    | audio d =>
      simp only [OutputFile.exec, OutputFile.addStream, OutputFile.addAudioStream,
        OutputFile.pushOutputStream, OutputFile.afterCall]
      split_ifs <;> simp <;> omega
    | data d =>
      simp only [OutputFile.exec, OutputFile.addStream, OutputFile.addDataStream,
        OutputFile.pushOutputStream, OutputFile.afterCall]
      split_ifs <;> simp <;> omega
  | getStream i => exact h
  | setupWrapping profile =>
    simp only [OutputFile.exec, OutputFile.setupWrapping]
    split_ifs
    · exact h
    · split
      · exact h
      · split_ifs
        · exact h
        · simp only [OutputFile.setupWrappingOptions]
          rw [(OutputFile.setupWrappingOptions_frame env ad _ _).1,
            (OutputFile.setupWrappingOptions_frame env ad _ _).2.1]
          exact h
        · exact h
  | beginWrap => exact OutputFile.beginWrap_counts env ad s h
  | wrap data i =>
    simp only [OutputFile.exec]
    rw [(OutputFile.wrap_frame env ad s data i).1, (OutputFile.wrap_frame env ad s data i).2.1]
    exact h
  | endWrap =>
    simp only [OutputFile.exec, OutputFile.endWrap, OutputFile.afterCall]
    split_ifs <;> exact h
  | addMetadata k v =>
    simp only [OutputFile.exec, OutputFile.addMetadata, OutputFile.afterCall]
    split_ifs <;> exact h
  | addMetadataVector data =>
    simp only [OutputFile.exec]
    rw [(OutputFile.addMetadataVector_frame ad data s).1,
      (OutputFile.addMetadataVector_frame ad data s).2.1]
    exact h

/-- After any sequence of calls there are at most as many frame counters as
registered streams. -/
theorem OutputFile.run_counts (env : Env) (ad : FormatContext σ) (ops : List Op) (s : OutputFile σ)
    (h : s._frameCount.length ≤ s._outputStreams.length) :
    (OutputFile.run env ad s ops)._frameCount.length
      ≤ (OutputFile.run env ad s ops)._outputStreams.length := by
  induction ops generalizing s with
  | nil => exact h
  | cons op ops ih =>
    simp only [OutputFile.run, List.foldl_cons]
    exact ih _ (OutputFile.exec_counts env ad s op h)

/-- The test of the two loops is false exactly for the keys that are not
reserved. -/
theorem Env.isReserved_eq_false (env : Env) (k : String) :
    ¬ env.isReserved k = true ↔ k ∉ env.reservedKeys := by
  simp [Env.isReserved, Env.reservedKeys, and_assoc]

/-- One more call that is no attempt on a reserved key keeps `NoReserved`. -/
theorem OutputFile.noReserved_afterCall (env : Env) (s : OutputFile σ) (r : σ × Bool) (c : Call)
    (h : s.NoReserved env) (hc : ∀ k v, c = Call.setOption k v → k ∉ env.reservedKeys) :
    (s.afterCall r c).NoReserved env := by
  refine ⟨h.1, ?_⟩
  intro ev hev k v hcall
  simp only [OutputFile.afterCall, List.mem_append, List.mem_singleton] at hev
  rcases hev with h0 | h0
  · exact h.2 ev h0 k v hcall
  · rw [h0] at hcall
    exact hc k v hcall

/-- One turn of the loop of `setupWrappingOptions` keeps `NoReserved`. -/
theorem OutputFile.setupWrappingOption_noReserved (env : Env) (ad : FormatContext σ)
    (s : OutputFile σ) (it : String × String) (h : s.NoReserved env) :
    (OutputFile.setupWrappingOption env ad s it).NoReserved env := by
  unfold OutputFile.setupWrappingOption
  by_cases hr : env.isReserved it.1 = true
  · simpa [hr] using h
  · have hk : it.1 ∉ env.reservedKeys := (Env.isReserved_eq_false env it.1).mp hr
    have h1 := OutputFile.noReserved_afterCall env s (ad.setOption s._formatContext it.1 it.2)
      (.setOption it.1 it.2) h (by
        intro k v hc
        simp only [Call.setOption.injEq] at hc
        rw [← hc.1]; exact hk)
    have hr1 : env.isReserved it.1 = false := by simpa using hr
    by_cases hok : (ad.setOption s._formatContext it.1 it.2).2 = true
    · simpa [hr1, hok] using h1
    · simp only [hr1, hok, Bool.false_eq_true, if_false]
      refine ⟨?_, h1.2⟩
      intro e he
      rcases mem_setEntry _ _ _ e he with h0 | h0
      · exact h1.1 e h0
      · rw [h0]; exact hk

/-- The loop of `setupWrappingOptions` keeps `NoReserved`. -/
theorem OutputFile.setupWrappingOptions_noReserved (env : Env) (ad : FormatContext σ)
    (es : List (String × String)) (s : OutputFile σ) (h : s.NoReserved env) :
    (es.foldl (OutputFile.setupWrappingOption env ad) s).NoReserved env := by
  induction es generalizing s with
  | nil => exact h
  | cons e es ih => exact ih _ (OutputFile.setupWrappingOption_noReserved env ad s e h)

/-- The loop of `setupRemainingWrappingOptions` keeps `NoReserved`. -/
theorem OutputFile.setupRemainingWrappingOptions_noReserved (env : Env) (ad : FormatContext σ)
    (es : List (String × String)) (s : OutputFile σ) (h : s.NoReserved env) :
    (es.foldl (OutputFile.setupRemainingWrappingOption env ad) s).NoReserved env := by
  induction es generalizing s with
  | nil => exact h
  | cons e es ih =>
    apply ih
    unfold OutputFile.setupRemainingWrappingOption
    by_cases hr : env.isReserved e.1 = true
    · simpa [hr] using h
    · simp only [hr, if_false]
      apply OutputFile.noReserved_afterCall env s _ _ h
      intro k v hc
      simp only [Call.setOption.injEq] at hc
      rw [← hc.1]
      exact (Env.isReserved_eq_false env e.1).mp hr

/-- The function `addMetadata( data )` keeps `NoReserved`. -/
theorem OutputFile.addMetadataVector_noReserved (env : Env) (ad : FormatContext σ)
    (data : List (String × String)) (s : OutputFile σ) (h : s.NoReserved env) :
    (OutputFile.addMetadataVector ad s data).2.NoReserved env := by
  induction data generalizing s with
  | nil => exact h
  | cons it rest ih =>
    have h1 := OutputFile.noReserved_afterCall env s (ad.addMetaData s._formatContext it.1 it.2)
      (.addMetaData it.1 it.2) h (by intro k v hc; simp at hc)
    simp only [OutputFile.addMetadataVector, OutputFile.addMetadata]
    by_cases hok : (ad.addMetaData s._formatContext it.1 it.2).2 = true
    · simp only [hok, if_true]
      exact ih _ h1
    · simp only [hok, if_false]
      exact h1

/-- Every call of a public function keeps `NoReserved`. -/
theorem OutputFile.exec_noReserved (env : Env) (ad : FormatContext σ) (s : OutputFile σ) (op : Op)
    (h : s.NoReserved env) : (OutputFile.exec env ad s op).NoReserved env := by
  cases op with
  | addStream desc =>
    cases desc with
    | video d =>
      have h1 := OutputFile.noReserved_afterCall env s (ad.addAVStream s._formatContext d.codec)
        (.addAVStream d.codec) h (by intro k v hc; simp at hc)
      simp only [OutputFile.exec, OutputFile.addStream, OutputFile.addVideoStream,
        OutputFile.pushOutputStream]
      split_ifs
      · exact h1
      · exact h1
    | audio d =>
      have h1 := OutputFile.noReserved_afterCall env s (ad.addAVStream s._formatContext d.codec)
        (.addAVStream d.codec) h (by intro k v hc; simp at hc)
      simp only [OutputFile.exec, OutputFile.addStream, OutputFile.addAudioStream,
        OutputFile.pushOutputStream]
      split_ifs
      · exact h1
      · exact h1
    | data d =>
      have h1 := OutputFile.noReserved_afterCall env s (ad.addAVStream s._formatContext d.codec)
        (.addAVStream d.codec) h (by intro k v hc; simp at hc)
      simp only [OutputFile.exec, OutputFile.addStream, OutputFile.addDataStream,
        OutputFile.pushOutputStream]
      split_ifs
      · exact h1
      · exact h1
  | getStream i => exact h
  | setupWrapping profile =>
    simp only [OutputFile.exec, OutputFile.setupWrapping]
    split_ifs
    · exact h
    · split
      · exact h
      · rename_i format _
        have h1 := OutputFile.noReserved_afterCall env s
          (ad.setOutputFormat s._formatContext (s.getFilename ad) format "")
          (.setOutputFormat (s.getFilename ad) format "") h (by intro k v hc; simp at hc)
        split_ifs
        · exact h
        · exact OutputFile.setupWrappingOptions_noReserved env ad _ _ h1
        · exact h1
  | beginWrap =>
    have h1 := OutputFile.noReserved_afterCall env s
      (ad.openRessource s._formatContext (s.getFilename ad))
      (.openRessource (s.getFilename ad)) h (by intro k v hc; simp at hc)
    have h2 := OutputFile.noReserved_afterCall env _
      (ad.writeHeader (s.afterCall (ad.openRessource s._formatContext (s.getFilename ad))
        (.openRessource (s.getFilename ad)))._formatContext)
      .writeHeader h1 (by intro k v hc; simp at hc)
    simp only [OutputFile.exec, OutputFile.beginWrap]
    split_ifs
    · exact OutputFile.setupRemainingWrappingOptions_noReserved env ad _ _ h2
    · exact h2
    · exact h1
  | wrap data i =>
    have h1 := OutputFile.noReserved_afterCall env s
      (ad.writeFrame s._formatContext (wrapPacket data i))
      (.writeFrame (wrapPacket data i)) h (by intro k v hc; simp at hc)
    simp only [OutputFile.exec, OutputFile.wrap]
    split_ifs
    · exact h
    · exact h
    · split
      · exact h1
      · split_ifs
        · exact h1
        · split <;> exact h1
    · exact h1
  | endWrap =>
    have h1 := OutputFile.noReserved_afterCall env s (ad.writeTrailer s._formatContext)
      .writeTrailer h (by intro k v hc; simp at hc)
    have h2 := OutputFile.noReserved_afterCall env _
      (ad.closeRessource (s.afterCall (ad.writeTrailer s._formatContext)
        .writeTrailer)._formatContext)
      .closeRessource h1 (by intro k v hc; simp at hc)
    simp only [OutputFile.exec, OutputFile.endWrap]
    split_ifs
    · exact h2
    · exact h2
    · exact h1
  | addMetadata k v =>
    have h1 := OutputFile.noReserved_afterCall env s (ad.addMetaData s._formatContext k v)
      (.addMetaData k v) h (by intro k v hc; simp at hc)
    simp only [OutputFile.exec, OutputFile.addMetadata]
    split_ifs <;> exact h1
  | addMetadataVector data => exact OutputFile.addMetadataVector_noReserved env ad data s h

/-- Every sequence of calls of public functions keeps `NoReserved`. -/
theorem OutputFile.run_noReserved (env : Env) (ad : FormatContext σ) (ops : List Op)
    (s : OutputFile σ) (h : s.NoReserved env) : (OutputFile.run env ad s ops).NoReserved env := by
  induction ops generalizing s with
  | nil => exact h
  | cons op ops ih => exact ih _ (OutputFile.exec_noReserved env ad s op h)

/-- The adapter state and the watermark left by `wrap` for a registered stream:
either both are untouched, or the adapter is the one left by `writeFrame` and
the watermark is untouched (packet rejected, or duration below the watermark),
or the adapter is the one left by `writeFrame` and the watermark is the
duration then reported, which is not below the former watermark. -/
theorem OutputFile.wrap_fields (env : Env) (ad : FormatContext σ) (s : OutputFile σ)
    (data : CodedData) (i : Nat) (os : OutputStream) (hos : s._outputStreams[i]? = some os) :
    ((OutputFile.wrap env ad s data i).2._formatContext = s._formatContext ∧
      (OutputFile.wrap env ad s data i).2._previousProcessedStreamDuration
        = s._previousProcessedStreamDuration) ∨
    ((OutputFile.wrap env ad s data i).2._formatContext
        = (ad.writeFrame s._formatContext (wrapPacket data i)).1 ∧
      (OutputFile.wrap env ad s data i).2._previousProcessedStreamDuration
        = s._previousProcessedStreamDuration ∧
      (ad.writeFrame s._formatContext (wrapPacket data i)).2 = false) ∨
    ((OutputFile.wrap env ad s data i).2._formatContext
        = (ad.writeFrame s._formatContext (wrapPacket data i)).1 ∧
      (OutputFile.wrap env ad s data i).2._previousProcessedStreamDuration
        = s._previousProcessedStreamDuration ∧
      ad.getStreamDuration (ad.writeFrame s._formatContext (wrapPacket data i)).1 os._streamIndex
        < s._previousProcessedStreamDuration) ∨
    ((OutputFile.wrap env ad s data i).2._formatContext
        = (ad.writeFrame s._formatContext (wrapPacket data i)).1 ∧
      (OutputFile.wrap env ad s data i).2._previousProcessedStreamDuration
        = ad.getStreamDuration (ad.writeFrame s._formatContext (wrapPacket data i)).1
            os._streamIndex ∧
      s._previousProcessedStreamDuration
        ≤ ad.getStreamDuration (ad.writeFrame s._formatContext (wrapPacket data i)).1
            os._streamIndex) := by
  unfold OutputFile.wrap
  by_cases h1 : data.getSize = 0
  · left; simp [h1]
  by_cases h2 : (env.logDebugEvaluates && decide (s._frameCount.length ≤ i)) = true
  · left; simp [h1, h2]
  by_cases h3 : (ad.writeFrame s._formatContext (wrapPacket data i)).2 = true
  · by_cases h4 : ad.getStreamDuration (ad.writeFrame s._formatContext (wrapPacket data i)).1
        os._streamIndex < s._previousProcessedStreamDuration
    · right; right; left
      simp [h1, h2, h3, OutputFile.afterCall, hos, h4]
    · right; right; right
      simp only [h1, h2, h3, if_true, if_false, OutputFile.afterCall, hos, h4]
      cases s._frameCount[i]? <;> exact ⟨rfl, rfl, not_lt.mp h4⟩
  · right; left
    simp [h1, h2, h3, OutputFile.afterCall]

/-- A call of `wrap` for a registered stream keeps the watermark equal to the
greatest duration of the registered streams, under the duration contract and
when rejected packets change no duration. -/
theorem OutputFile.wrap_watermarkIsMax (env : Env) (ad : FormatContext σ) (s : OutputFile σ)
    (data : CodedData) (i : Nat) (hc : ad.DurationContract s._outputStreams)
    (hfail : ad.RejectionKeepsDurations s._outputStreams)
    (hi : i < s._outputStreams.length) (h : s.WatermarkIsMax ad) :
    (OutputFile.wrap env ad s data i).2.WatermarkIsMax ad := by
  obtain ⟨hmono, honly⟩ := hc
  obtain ⟨hle, j0, os0, hj0, heq⟩ := h
  have hsome : s._outputStreams[i]? = some (s._outputStreams[i]) := List.getElem?_eq_getElem hi
  have hstreams := (OutputFile.wrap_frame env ad s data i).1
  unfold OutputFile.WatermarkIsMax
  rw [hstreams]
  rcases OutputFile.wrap_fields env ad s data i _ hsome with
    ⟨e1, e2⟩ | ⟨e1, e2, e3⟩ | ⟨e1, e2, e3⟩ | ⟨e1, e2, e3⟩
  · rw [e1, e2]
    exact ⟨hle, j0, os0, hj0, heq⟩
  · rw [e1, e2]
    refine ⟨?_, j0, os0, hj0, ?_⟩
    · intro j os hj
      rw [hfail s._formatContext (wrapPacket data i) j os hj e3]
      exact hle j os hj
    · rw [hfail s._formatContext (wrapPacket data i) j0 os0 hj0 e3]
      exact heq
  · rw [e1, e2]
    have hne : j0 ≠ i := by
      intro hji
      subst hji
      rw [hsome] at hj0
      have hos : s._outputStreams[j0] = os0 := by simpa using hj0
      have hm := hmono s._formatContext (wrapPacket data j0) j0 os0 (by rw [hsome, hos])
      rw [hos] at e3
      rw [heq] at hm
      exact absurd e3 (not_lt.mpr hm)
    refine ⟨?_, j0, os0, hj0, ?_⟩
    · intro j os hj
      by_cases hji : j = i
      · subst hji
        rw [hsome] at hj
        have hos : s._outputStreams[j] = os := by simpa using hj
        rw [hos] at e3
        exact le_of_lt e3
      · rw [honly s._formatContext data i j os hi hji hj]
        exact hle j os hj
    · rw [honly s._formatContext data i j0 os0 hi hne hj0]
      exact heq
  · rw [e1, e2]
    refine ⟨?_, i, s._outputStreams[i], hsome, rfl⟩
    intro j os hj
    by_cases hji : j = i
    · subst hji
      rw [hsome] at hj
      have hos : s._outputStreams[j] = os := by simpa using hj
      rw [hos]
    · rw [honly s._formatContext data i j os hi hji hj]
      exact le_trans (hle j os hj) e3

/-- A sequence of `wrap` calls for registered streams keeps the registered
streams and keeps the watermark equal to the greatest of their durations. -/
theorem OutputFile.wrapAll_watermarkIsMax (env : Env) (ad : FormatContext σ)
    (calls : List (CodedData × Nat)) (s : OutputFile σ)
    (hc : ad.DurationContract s._outputStreams)
    (hfail : ad.RejectionKeepsDurations s._outputStreams)
    (hvalid : ∀ c ∈ calls, c.2 < s._outputStreams.length) (h : s.WatermarkIsMax ad) :
    (OutputFile.wrapAll env ad s calls)._outputStreams = s._outputStreams ∧
    (OutputFile.wrapAll env ad s calls).WatermarkIsMax ad := by
  induction calls generalizing s with
  | nil => exact ⟨rfl, h⟩
  | cons c cs ih =>
    have hs := (OutputFile.wrap_frame env ad s c.1 c.2).1
    have hstep := OutputFile.wrap_watermarkIsMax env ad s c.1 c.2 hc hfail
      (hvalid c (List.mem_cons_self _ _)) h
    obtain ⟨e1, e2⟩ := ih (OutputFile.wrap env ad s c.1 c.2).2 (by rw [hs]; exact hc)
      (by rw [hs]; exact hfail)
      (by rw [hs]; exact fun c1 hc1 => hvalid c1 (List.mem_cons_of_mem _ hc1)) hstep
    exact ⟨by rw [← hs]; exact e1, e2⟩

/-- The entries of a list of durations after one of them was advanced. -/
theorem getD_advance (l : List Int) (k i : Nat) (d : Int) :
    (advance l k d).getD i 0 = if i = k ∧ k < l.length then l.getD i 0 + d else l.getD i 0 := by
  induction l generalizing k i with
  | nil => cases k <;> simp [advance]
  | cons x xs ih =>
    cases k with
    | zero =>
      cases i with
      | zero => simp [advance]
      | succ i => simp [advance]
    | succ k =>
      cases i with
      | zero => simp [advance]
      | succ i => simpa [advance] using ih k i

/-- The sample adapter fulfils the duration contract for the two streams of the
open sample wrapper. -/
theorem sampleAdapter_durationContract :
    sampleAdapter.DurationContract sampleOpen._outputStreams := by
  have hstreams : sampleOpen._outputStreams = [⟨0⟩, ⟨1⟩] := by decide
  rw [hstreams]
  refine ⟨?_, ?_⟩
  · intro a pkt j os _
    simp only [sampleAdapter]
    split_ifs
    · simp only [Int.cast_le, getD_advance]
      split_ifs
      · have : (0 : Int) ≤ (pkt.data.length : Int) := Int.natCast_nonneg _
        omega
      · exact le_refl _
    · exact le_refl _
  · intro a data i j os hi hji hj
    have hidx : os._streamIndex = j := by
      match j, hj with
      | 0, hj => simp at hj; rw [← hj]
      | 1, hj => simp at hj; rw [← hj]
      | n + 2, hj => simp at hj
    have hi2 : i = 0 ∨ i = 1 := by
      simp only [List.length_cons, List.length_nil] at hi
      omega
    have hpkt : (wrapPacket data i).stream_index.toNat = i := by
      rcases hi2 with h | h <;> subst h <;> simp [wrapPacket, toInt32]
    simp only [sampleAdapter]
    split_ifs
    · simp only [Int.cast_inj, getD_advance, hpkt, hidx]
      have : ¬ (j = i ∧ i < a.durations.length) := fun c => hji c.1
      simp [this]
    · rfl

/-- A packet that the sample adapter rejects changes no duration. -/
theorem sampleAdapter_rejectionKeepsDurations :
    sampleAdapter.RejectionKeepsDurations sampleOpen._outputStreams := by
  intro a pkt j os _ hfailed
  simp only [sampleAdapter] at hfailed ⊢
  split_ifs at hfailed ⊢
  rfl

/-- The rejecting adapter fulfils the duration contract for the two streams of
its open wrapper. -/
theorem rejectingAdapter_durationContract :
    rejectingAdapter.DurationContract rejectingOpen._outputStreams := by
  have hstreams : rejectingOpen._outputStreams = [⟨0⟩, ⟨1⟩] := by decide
  rw [hstreams]
  refine ⟨?_, ?_⟩
  · intro a pkt j os _
    simp only [rejectingAdapter, sampleAdapter]
    split_ifs
    · simp only [Int.cast_le, getD_advance]
      split_ifs
      · have : (0 : Int) ≤ (pkt.data.length : Int) := Int.natCast_nonneg _
        omega
      · exact le_refl _
    · exact le_refl _
  · intro a data i j os hi hji hj
    have hidx : os._streamIndex = j := by
      match j, hj with
      | 0, hj => simp at hj; rw [← hj]
      | 1, hj => simp at hj; rw [← hj]
      | n + 2, hj => simp at hj
    have hi2 : i = 0 ∨ i = 1 := by
      simp only [List.length_cons, List.length_nil] at hi
      omega
    have hpkt : (wrapPacket data i).stream_index.toNat = i := by
      rcases hi2 with h | h <;> subst h <;> simp [wrapPacket, toInt32]
    simp only [rejectingAdapter, sampleAdapter]
    split_ifs
    · simp only [Int.cast_inj, getD_advance, hpkt, hidx]
      have : ¬ (j = i ∧ i < a.durations.length) := fun c => hji c.1
      simp [this]
    · rfl

/-! ## Theorems -/

/-- C3 (empty-data no-op): in every state and for every stream index, `wrap`
called with a buffer of size 0 returns `eWrappingSuccess` and leaves the whole
state as it was: no call is added to the calls handed to the adapter, and the
frame counts and the watermark are unchanged. -/
theorem wrap_empty_data_noop (env : Env) (ad : FormatContext σ) (s : OutputFile σ)
    (data : CodedData) (streamIndex : Nat) (hempty : data.getSize = 0) :
    OutputFile.wrap env ad s data streamIndex = (.returned .eWrappingSuccess, s) := by
  simp [OutputFile.wrap, hempty]

/-- Witness of C3 on the open sample wrapper, for a buffer of 0 bytes on stream 1. -/
theorem wrap_empty_data_noop_witness :
    (bytes 0).getSize = 0 ∧
    OutputFile.wrap sampleEnv sampleAdapter sampleA10 (bytes 0) 1
      = (.returned .eWrappingSuccess, sampleA10) :=
  ⟨by decide, wrap_empty_data_noop sampleEnv sampleAdapter sampleA10 (bytes 0) 1 (by decide)⟩

/-- C1 (pacing rule): for a non-empty buffer and the index of a registered stream
that has a frame counter, when the adapter accepts the packet, let `d` be the
duration of that stream reported after the write and `W` the watermark before
the call.  If `d < W`, `wrap` returns `eWrappingWaitingForData` and leaves the
watermark and all frame counts unchanged; if `W ≤ d`, `wrap` returns
`eWrappingSuccess`, the watermark becomes `d`, the frame count of the stream is
incremented by one and the frame count of every other stream is unchanged. -/
theorem wrap_pacing_rule (env : Env) (ad : FormatContext σ) (s : OutputFile σ)
    (data : CodedData) (streamIndex : Nat) (outputStream : OutputStream) (n : Nat)
    (hdata : data.getSize ≠ 0)
    (hstream : s._outputStreams[streamIndex]? = some outputStream)
    (hcount : s._frameCount[streamIndex]? = some n)
    (hwrite : (ad.writeFrame s._formatContext (wrapPacket data streamIndex)).2 = true) :
    (ad.getStreamDuration (ad.writeFrame s._formatContext (wrapPacket data streamIndex)).1
          outputStream._streamIndex < s._previousProcessedStreamDuration →
        (OutputFile.wrap env ad s data streamIndex).1 = .returned .eWrappingWaitingForData ∧
        (OutputFile.wrap env ad s data streamIndex).2._previousProcessedStreamDuration
          = s._previousProcessedStreamDuration ∧
        (OutputFile.wrap env ad s data streamIndex).2._frameCount = s._frameCount) ∧
    (s._previousProcessedStreamDuration ≤
          ad.getStreamDuration (ad.writeFrame s._formatContext (wrapPacket data streamIndex)).1
            outputStream._streamIndex →
        (OutputFile.wrap env ad s data streamIndex).1 = .returned .eWrappingSuccess ∧
        (OutputFile.wrap env ad s data streamIndex).2._previousProcessedStreamDuration
          = ad.getStreamDuration (ad.writeFrame s._formatContext (wrapPacket data streamIndex)).1
              outputStream._streamIndex ∧
        (OutputFile.wrap env ad s data streamIndex).2._frameCount[streamIndex]? = some (n + 1) ∧
        (OutputFile.wrap env ad s data streamIndex).2._frameCount.length = s._frameCount.length ∧
        ∀ j, j ≠ streamIndex →
          (OutputFile.wrap env ad s data streamIndex).2._frameCount[j]? = s._frameCount[j]?) := by
  have hlt : streamIndex < s._frameCount.length := by
    rcases List.getElem?_eq_some.mp hcount with ⟨h, _⟩
    exact h
  have hlog : (env.logDebugEvaluates && decide (s._frameCount.length ≤ streamIndex)) = false := by
    simp [hlt]
  constructor
  · intro hd
    simp [OutputFile.wrap, hdata, hlog, hwrite, OutputFile.afterCall, hstream, hd]
  · intro hd
    have hd2 : ¬ ad.getStreamDuration (ad.writeFrame s._formatContext (wrapPacket data streamIndex)).1
        outputStream._streamIndex < s._previousProcessedStreamDuration := not_lt.mpr hd
    simp only [OutputFile.wrap, hdata, hlog, hwrite, OutputFile.afterCall, hstream, hd2, hcount,
      if_false, if_true, Bool.false_eq_true]
    refine ⟨trivial, trivial, ?_, ?_, ?_⟩
    · simp [List.getElem?_set, hlt]
    · simp
    · intro j hj
      simp [List.getElem?_set, Ne.symm hj]

/-- Witness of C1, the scenario of two streams A and B on the sample adapter: A
is at 10 and B at 0; a packet bringing B to 5 gives `eWrappingWaitingForData`
with the frame counts unchanged; a further packet bringing B to 11 gives
`eWrappingSuccess` and the watermark 11. -/
theorem wrap_pacing_rule_witness :
    (sampleA10._previousProcessedStreamDuration = 10 ∧
      (OutputFile.wrap sampleEnv sampleAdapter sampleA10 (bytes 5) 1).1
        = .returned .eWrappingWaitingForData ∧
      (OutputFile.wrap sampleEnv sampleAdapter sampleA10 (bytes 5) 1).2._frameCount
        = sampleA10._frameCount) ∧
    ((OutputFile.wrap sampleEnv sampleAdapter sampleB5 (bytes 6) 1).1
        = .returned .eWrappingSuccess ∧
      (OutputFile.wrap sampleEnv sampleAdapter sampleB5 (bytes 6) 1).2._previousProcessedStreamDuration
        = 11 ∧
      (OutputFile.wrap sampleEnv sampleAdapter sampleB5 (bytes 6) 1).2._frameCount[1]? = some 1) :=
  ⟨⟨by decide,
    ((wrap_pacing_rule sampleEnv sampleAdapter sampleA10 (bytes 5) 1 ⟨1⟩ 0
      (by decide) (by decide) (by decide) (by decide)).1 (by decide)).1,
    ((wrap_pacing_rule sampleEnv sampleAdapter sampleA10 (bytes 5) 1 ⟨1⟩ 0
      (by decide) (by decide) (by decide) (by decide)).1 (by decide)).2.2⟩,
   ⟨((wrap_pacing_rule sampleEnv sampleAdapter sampleB5 (bytes 6) 1 ⟨1⟩ 0
      (by decide) (by decide) (by decide) (by decide)).2 (by decide)).1,
    ((wrap_pacing_rule sampleEnv sampleAdapter sampleB5 (bytes 6) 1 ⟨1⟩ 0
      (by decide) (by decide) (by decide) (by decide)).2 (by decide)).2.1.trans (by decide),
    ((wrap_pacing_rule sampleEnv sampleAdapter sampleB5 (bytes 6) 1 ⟨1⟩ 0
      (by decide) (by decide) (by decide) (by decide)).2 (by decide)).2.2.1⟩⟩

/-- C2 (monotonic watermark): from every state and for every sequence of `wrap`
calls, with any data and any stream index, whether a call returns
`eWrappingSuccess`, returns `eWrappingWaitingForData` or raises, the watermark
after each call is greater than or equal to the watermark before that call. -/
theorem watermark_monotonic (env : Env) (ad : FormatContext σ) (s : OutputFile σ)
    (calls : List (CodedData × Nat)) :
    List.Chain (fun W W1 : ℚ => W ≤ W1) s._previousProcessedStreamDuration
      ((OutputFile.wrapStates env ad s calls).map
        (fun t => t._previousProcessedStreamDuration)) := by
  induction calls generalizing s with
  | nil => exact List.Chain.nil
  | cons c cs ih =>
    simp only [OutputFile.wrapStates, List.map_cons]
    exact List.Chain.cons (OutputFile.watermark_le_wrap env ad s c.1 c.2) (ih _)

/-- C4 (index bijection): on a new wrapper whose adapter has no stream and counts
its streams, after `n` successful registrations of any kinds, `getStream( i )`
returns for every `i < n` the descriptor returned by the registration of rank
`i`, whose index in the container is `i`, and raises the out-of-range error for
every `i ≥ n`. -/
theorem getStream_index_bijection (ad : FormatContext σ) (a : σ)
    (filename formatName mimeType : String) (s0 s : OutputFile σ)
    (descs : List StreamDesc) (handles : List OutputStream)
    (hcontract : ad.CountsStreams)
    (hnew : OutputFile.new ad a filename formatName mimeType = .returned s0)
    (hzero : ad.getNbStreams s0._formatContext = 0)
    (hreg : OutputFile.addStreams ad s0 descs = some (handles, s)) :
    handles.length = descs.length ∧
    (∀ i, i < descs.length → ∃ h, handles[i]? = some h ∧ s.getStream i = .returned h ∧
      h._streamIndex = i) ∧
    (∀ i, descs.length ≤ i →
      s.getStream i = .threw (.runtimeError "unable to get output stream (out of range)")) := by
  obtain ⟨n1, _, _, _, _⟩ := OutputFile.new_returned ad a filename formatName mimeType s0 hnew
  have hs0 : s0.InStep ad := ⟨by rw [hzero, n1]; rfl, by intro i os hi; simp [n1] at hi⟩
  obtain ⟨e1, e2, e3⟩ := OutputFile.addStreams_returned ad hcontract descs s0 s handles hs0 hreg
  rw [n1, List.nil_append] at e1
  refine ⟨e2, ?_, ?_⟩
  · intro i hi
    have hi2 : i < s._outputStreams.length := by rw [e1, e2]; exact hi
    refine ⟨s._outputStreams.get ⟨i, hi2⟩, ?_, ?_, ?_⟩
    · rw [← e1]; simp [List.getElem?_eq_getElem hi2]
    · simp [OutputFile.getStream, Nat.not_le.mpr hi2]
    · exact e3.2 i _ (by simp [List.getElem?_eq_getElem hi2])
  · intro i hi
    have hi2 : s._outputStreams.length ≤ i := by rw [e1, e2]; exact hi
    simp [OutputFile.getStream, hi2]

/-- Witness of C4 on the sample adapter: a video, an audio and a data stream are
registered; positions 0, 1 and 2 hold the descriptors of index 0, 1 and 2, and
position 3 is out of range. -/
theorem getStream_index_bijection_witness :
    (∀ i, i < 3 → ∃ h, [(⟨0⟩ : OutputStream), ⟨1⟩, ⟨2⟩][i]? = some h ∧
      (OutputFile.run sampleEnv sampleAdapter sampleNew
        [.addStream (.video ⟨"h264", 16, 16, 0, 0, 0, 0, [], 0, ⟨1, 30⟩, 1⟩),
         .addStream (.audio ⟨"aac", 48000, 2, 3, 1, 1024, ⟨1, 48000⟩⟩),
         .addStream (.data ⟨"bin"⟩)]).getStream i = .returned h ∧ h._streamIndex = i) ∧
    (OutputFile.run sampleEnv sampleAdapter sampleNew
        [.addStream (.video ⟨"h264", 16, 16, 0, 0, 0, 0, [], 0, ⟨1, 30⟩, 1⟩),
         .addStream (.audio ⟨"aac", 48000, 2, 3, 1, 1024, ⟨1, 48000⟩⟩),
         .addStream (.data ⟨"bin"⟩)]).getStream 3
      = .threw (.runtimeError "unable to get output stream (out of range)") :=
  have h := getStream_index_bijection sampleAdapter sampleContext "out.mp4" "mp4" "" sampleNew
    (OutputFile.run sampleEnv sampleAdapter sampleNew
        [.addStream (.video ⟨"h264", 16, 16, 0, 0, 0, 0, [], 0, ⟨1, 30⟩, 1⟩),
         .addStream (.audio ⟨"aac", 48000, 2, 3, 1, 1024, ⟨1, 48000⟩⟩),
         .addStream (.data ⟨"bin"⟩)])
    [.video ⟨"h264", 16, 16, 0, 0, 0, 0, [], 0, ⟨1, 30⟩, 1⟩,
     .audio ⟨"aac", 48000, 2, 3, 1, 1024, ⟨1, 48000⟩⟩, .data ⟨"bin"⟩]
    [⟨0⟩, ⟨1⟩, ⟨2⟩]
    ⟨fun _ _ _ => by simp [sampleAdapter], fun _ _ => rfl, fun _ _ => rfl⟩
    rfl rfl rfl
  ⟨h.2.1, h.2.2 3 (Nat.le_refl 3)⟩

/-- C5 (index validation precedes the write): in every state reached from a new
wrapper by any sequence of calls of the public functions, so also when the
number of registered streams differs from the number of frame counters, `wrap`
called with a non-empty buffer and a stream index that is not the index of a
registered stream raises `std::out_of_range` and leaves the whole state as it
was: no packet is handed to the adapter, the watermark and the frame counts are
unchanged.  The check made before the write is the operand
`_frameCount.at( streamIndex )` that line 167 hands to `LOG_DEBUG`. -/
theorem wrap_invalid_index_fails_before_write (env : Env) (ad : FormatContext σ) (a : σ)
    (filename formatName mimeType : String) (s0 : OutputFile σ) (ops : List Op)
    (data : CodedData) (streamIndex : Nat)
    (hlog : env.logDebugEvaluates = true)
    (hnew : OutputFile.new ad a filename formatName mimeType = .returned s0)
    (hdata : data.getSize ≠ 0)
    (hindex : (OutputFile.run env ad s0 ops)._outputStreams.length ≤ streamIndex) :
    OutputFile.wrap env ad (OutputFile.run env ad s0 ops) data streamIndex
      = (.threw .outOfRange, OutputFile.run env ad s0 ops) := by
  obtain ⟨n1, n2, _, _, _⟩ := OutputFile.new_returned ad a filename formatName mimeType s0 hnew
  have hcounts := OutputFile.run_counts env ad ops s0 (by simp [n1, n2])
  have hle : (OutputFile.run env ad s0 ops)._frameCount.length ≤ streamIndex :=
    Nat.le_trans hcounts hindex
  simp [OutputFile.wrap, hdata, hlog, hle]

/-- Witness of C5 on the sample adapter: two streams are registered and a third
one is registered after `beginWrap`, so there are three streams and two frame
counters; a packet of 4 bytes for stream 3 is refused before the write. -/
theorem wrap_invalid_index_fails_before_write_witness :
    (OutputFile.run sampleEnv sampleAdapter sampleNew
      [.addStream (.video ⟨"h264", 16, 16, 0, 0, 0, 0, [], 0, ⟨1, 30⟩, 1⟩),
       .addStream (.audio ⟨"aac", 48000, 2, 3, 1, 1024, ⟨1, 48000⟩⟩),
       .beginWrap, .addStream (.data ⟨"bin"⟩)])._frameCount.length = 2 ∧
    OutputFile.wrap sampleEnv sampleAdapter
      (OutputFile.run sampleEnv sampleAdapter sampleNew
        [.addStream (.video ⟨"h264", 16, 16, 0, 0, 0, 0, [], 0, ⟨1, 30⟩, 1⟩),
         .addStream (.audio ⟨"aac", 48000, 2, 3, 1, 1024, ⟨1, 48000⟩⟩),
         .beginWrap, .addStream (.data ⟨"bin"⟩)]) (bytes 4) 3
      = (.threw .outOfRange,
         OutputFile.run sampleEnv sampleAdapter sampleNew
          [.addStream (.video ⟨"h264", 16, 16, 0, 0, 0, 0, [], 0, ⟨1, 30⟩, 1⟩),
           .addStream (.audio ⟨"aac", 48000, 2, 3, 1, 1024, ⟨1, 48000⟩⟩),
           .beginWrap, .addStream (.data ⟨"bin"⟩)]) :=
  ⟨by decide,
   wrap_invalid_index_fails_before_write sampleEnv sampleAdapter sampleContext "out.mp4" "mp4" ""
    sampleNew
    [.addStream (.video ⟨"h264", 16, 16, 0, 0, 0, 0, [], 0, ⟨1, 30⟩, 1⟩),
     .addStream (.audio ⟨"aac", 48000, 2, 3, 1, 1024, ⟨1, 48000⟩⟩),
     .beginWrap, .addStream (.data ⟨"bin"⟩)]
    (bytes 4) 3 rfl rfl (by decide) (by decide)⟩

/-- When `LOG_DEBUG` does not evaluate its operands, nothing is checked before
the write: for a non-empty buffer and an index that is not the index of a
registered stream, the packet is handed to the adapter, and `std::out_of_range`
is raised by line 180 once the adapter has returned. -/
theorem wrap_invalid_index_without_log (env : Env) (ad : FormatContext σ) (s : OutputFile σ)
    (data : CodedData) (streamIndex : Nat)
    (hlog : env.logDebugEvaluates = false)
    (hdata : data.getSize ≠ 0)
    (hindex : s._outputStreams.length ≤ streamIndex)
    (hwrite : (ad.writeFrame s._formatContext (wrapPacket data streamIndex)).2 = true) :
    OutputFile.wrap env ad s data streamIndex
      = (.threw .outOfRange,
         s.afterCall (ad.writeFrame s._formatContext (wrapPacket data streamIndex))
          (.writeFrame (wrapPacket data streamIndex))) := by
  have hnone : s._outputStreams[streamIndex]? = none := List.getElem?_eq_none hindex
  simp [OutputFile.wrap, hdata, hlog, hwrite, OutputFile.afterCall, hnone]

/-- Counterexample to C6: on the open sample wrapper whose watermark is 10 and
whose frame counts are 1 and 0, `beginWrap` returns `true` and resets the frame
counts, and the watermark after it is still 10, not 0. -/
theorem beginWrap_watermark_counterexample :
    sampleA10._previousProcessedStreamDuration = 10 ∧
    sampleA10._frameCount = [1, 0] ∧
    (OutputFile.beginWrap sampleEnv sampleAdapter sampleA10).1 = .returned true ∧
    (OutputFile.beginWrap sampleEnv sampleAdapter sampleA10).2._frameCount = [0, 0] ∧
    (OutputFile.beginWrap sampleEnv sampleAdapter sampleA10).2._previousProcessedStreamDuration
      ≠ 0 := by
  refine ⟨by decide, by decide, by decide, by decide, by decide⟩

/-- C6, amended (what `beginWrap` resets): in every state in which the adapter
opens the resource and writes the header, `beginWrap` returns `true`; after it
the registered streams are the same, there is exactly one frame counter per
registered stream, every frame counter is 0, and the watermark has the value it
had before the call (it is not reset). -/
theorem beginWrap_resets_frame_counts (env : Env) (ad : FormatContext σ) (s : OutputFile σ)
    (hopen : (ad.openRessource s._formatContext (s.getFilename ad)).2 = true)
    (hheader : (ad.writeHeader (ad.openRessource s._formatContext (s.getFilename ad)).1).2 = true) :
    (OutputFile.beginWrap env ad s).1 = .returned true ∧
    (OutputFile.beginWrap env ad s).2._outputStreams = s._outputStreams ∧
    (OutputFile.beginWrap env ad s).2._frameCount.length
      = (OutputFile.beginWrap env ad s).2._outputStreams.length ∧
    (∀ n ∈ (OutputFile.beginWrap env ad s).2._frameCount, n = 0) ∧
    (OutputFile.beginWrap env ad s).2._previousProcessedStreamDuration
      = s._previousProcessedStreamDuration := by
  obtain ⟨h1, h2, h3, h4⟩ := OutputFile.beginWrap_returned env ad s hopen hheader
  refine ⟨h1, h2, by rw [h2, h3]; simp, ?_, h4⟩
  intro n hn
  rw [h3] at hn
  exact (List.mem_replicate.mp hn).2

/-- Witness of the amended C6 on the sample wrapper whose watermark is 10. -/
theorem beginWrap_resets_frame_counts_witness :
    (OutputFile.beginWrap sampleEnv sampleAdapter sampleA10).1 = .returned true ∧
    (∀ n ∈ (OutputFile.beginWrap sampleEnv sampleAdapter sampleA10).2._frameCount, n = 0) ∧
    (OutputFile.beginWrap sampleEnv sampleAdapter sampleA10).2._previousProcessedStreamDuration
      = sampleA10._previousProcessedStreamDuration :=
  ⟨(beginWrap_resets_frame_counts sampleEnv sampleAdapter sampleA10 (by decide) (by decide)).1,
   (beginWrap_resets_frame_counts sampleEnv sampleAdapter sampleA10 (by decide) (by decide)).2.2.2.1,
   (beginWrap_resets_frame_counts sampleEnv sampleAdapter sampleA10 (by decide) (by decide)).2.2.2.2⟩

/-- C8 (deferred option replay): let a profile be handed to
`setupWrappingOptions` and let `k` be a key that is not reserved and whose
attempt, with value `v`, failed during that call.  Then `(k, v)` is pending,
and a following `beginWrap` whose `openRessource` and `writeHeader` succeed
returns `true`, whether or not the attempt fails again; the calls it hands to
the adapter are `openRessource`, `writeHeader`, then one option attempt for
each pending option whose key is not reserved; among these exactly one sets
`k`, with the value `v`; and the registered streams are unchanged. -/
theorem deferred_option_replay (env : Env) (ad : FormatContext σ) (s s1 : OutputFile σ)
    (profile : Profile) (k v : String)
    (hsetup : OutputFile.setupWrappingOptions env ad s profile = s1)
    (hreserved : env.isReserved k = false)
    (hfailed : (⟨.setOption k v, false⟩ : Event) ∈ s1.calls.drop s.calls.length)
    (hopen : (ad.openRessource s1._formatContext (s1.getFilename ad)).2 = true)
    (hheader :
      (ad.writeHeader (ad.openRessource s1._formatContext (s1.getFilename ad)).1).2 = true) :
    (k, v) ∈ s1._profile.entries ∧
    (OutputFile.beginWrap env ad s1).1 = .returned true ∧
    (∃ replay, (OutputFile.beginWrap env ad s1).2.calls
        = s1.calls ++ ⟨.openRessource (s1.getFilename ad), true⟩ :: ⟨.writeHeader, true⟩ :: replay ∧
      optionCallsFor k replay = [Call.setOption k v] ∧
      replay.map Event.call
        = (s1._profile.entries.filter (fun e => !env.isReserved e.1)).map
            (fun e => Call.setOption e.1 e.2)) ∧
    (OutputFile.beginWrap env ad s1).2._outputStreams = s1._outputStreams := by
  obtain ⟨evs, h1, h2, _⟩ :=
    OutputFile.setupWrappingOptions_pending env ad profile.entries profile.nodup s
  have hpending : (k, v) ∈ s1._profile.entries := by
    rw [← hsetup]
    apply h2
    rw [← hsetup] at hfailed
    simp only [OutputFile.setupWrappingOptions] at hfailed
    rw [h1] at hfailed
    simpa using hfailed
  obtain ⟨b1, b2, _, _⟩ := OutputFile.beginWrap_returned env ad s1 hopen hheader
  obtain ⟨replay, c1, c2⟩ := OutputFile.beginWrap_calls env ad s1 hopen hheader
  refine ⟨hpending, b1, ⟨replay, c1, ?_, c2⟩, b2⟩
  unfold optionCallsFor
  rw [c2]
  exact optionAttempts_present env s1._profile.entries k v s1._profile.nodup hreserved hpending

/-- Witness of C8 on the new sample wrapper with the sample profile: the option
`bogus`, which the sample adapter never accepts, fails before `beginWrap`, is
attempted once more by `beginWrap`, after the header, and `beginWrap` returns
`true`. -/
theorem deferred_option_replay_witness :
    (⟨.setOption "bogus" "1", false⟩ : Event) ∈
      (OutputFile.setupWrappingOptions sampleEnv sampleAdapter sampleNew sampleProfile).calls.drop
        sampleNew.calls.length ∧
    (OutputFile.beginWrap sampleEnv sampleAdapter
      (OutputFile.setupWrappingOptions sampleEnv sampleAdapter sampleNew sampleProfile)).1
      = .returned true ∧
    ∃ replay, (OutputFile.beginWrap sampleEnv sampleAdapter
        (OutputFile.setupWrappingOptions sampleEnv sampleAdapter sampleNew sampleProfile)).2.calls
        = (OutputFile.setupWrappingOptions sampleEnv sampleAdapter sampleNew sampleProfile).calls
          ++ ⟨.openRessource "out.mp4", true⟩ :: ⟨.writeHeader, true⟩ :: replay ∧
      optionCallsFor "bogus" replay = [Call.setOption "bogus" "1"] :=
  have h := deferred_option_replay sampleEnv sampleAdapter sampleNew
    (OutputFile.setupWrappingOptions sampleEnv sampleAdapter sampleNew sampleProfile)
    sampleProfile "bogus" "1" rfl (by decide) (by decide) (by decide) (by decide)
  ⟨by decide, h.2.1, h.2.2.1.elim fun replay hr => ⟨replay, hr.1, hr.2.1⟩⟩

/-- C9 (reserved keys excluded): after any sequence of calls of the public
functions on a new wrapper, so after any sequence of `setupWrapping` and
`beginWrap` calls with any profiles, no option attempt handed to the adapter,
in the immediate application or in the deferred replay, has one of the four
reserved keys, and no reserved key is pending. -/
theorem reserved_keys_excluded (env : Env) (ad : FormatContext σ) (a : σ)
    (filename formatName mimeType : String) (s0 : OutputFile σ) (ops : List Op)
    (hnew : OutputFile.new ad a filename formatName mimeType = .returned s0) :
    (∀ ev ∈ (OutputFile.run env ad s0 ops).calls, ∀ k v,
      ev.call = Call.setOption k v → k ∉ env.reservedKeys) ∧
    (∀ e ∈ (OutputFile.run env ad s0 ops)._profile.entries, e.1 ∉ env.reservedKeys) := by
  obtain ⟨_, _, _, n4, n5⟩ := OutputFile.new_returned ad a filename formatName mimeType s0 hnew
  have h0 : s0.NoReserved env := by
    refine ⟨by simp [n4], ?_⟩
    intro ev hev k v hc
    rw [n5] at hev
    simp only [List.mem_cons, List.mem_singleton, List.not_mem_nil, or_false] at hev
    rcases hev with h | h <;> rw [h] at hc <;> simp at hc
  have h := OutputFile.run_noReserved env ad ops s0 h0
  exact ⟨h.2, h.1⟩

/-- Witness of C9 on the new sample wrapper: the sample profile, which has the
reserved format key, is set up and `beginWrap` is called; the option attempts
handed to the adapter are those of the three other keys, then the replay of
the two that failed. -/
theorem reserved_keys_excluded_witness :
    optionCalls (OutputFile.run sampleEnv sampleAdapter sampleNew
        [.setupWrapping sampleProfile, .beginWrap]).calls
      = [.setOption "movflags" "faststart", .setOption "bogus" "1", .setOption "threads" "4",
         .setOption "movflags" "faststart", .setOption "bogus" "1"] ∧
    ((∀ ev ∈ (OutputFile.run sampleEnv sampleAdapter sampleNew
        [.setupWrapping sampleProfile, .beginWrap]).calls, ∀ k v,
      ev.call = Call.setOption k v → k ∉ sampleEnv.reservedKeys) ∧
    (∀ e ∈ (OutputFile.run sampleEnv sampleAdapter sampleNew
        [.setupWrapping sampleProfile, .beginWrap])._profile.entries,
      e.1 ∉ sampleEnv.reservedKeys)) :=
  ⟨by decide,
   reserved_keys_excluded sampleEnv sampleAdapter sampleContext "out.mp4" "mp4" "" sampleNew
    [.setupWrapping sampleProfile, .beginWrap] rfl⟩

/-- Counterexample to C10: the rejecting adapter fulfils the two assumptions of
the claim (durations never decrease, a packet changes only the duration of the
stream it is written for); its wrapper has two registered streams, watermark 0
and both durations 0.  A `wrap` of 5 bytes for stream 0 raises the error of the
adapter at line 175; afterwards the duration of stream 0 is 5 and the watermark
is still 0, so the watermark is not the maximum of the stream durations. -/
theorem watermark_is_max_duration_counterexample :
    rejectingAdapter.DurationContract rejectingOpen._outputStreams ∧
    rejectingOpen._outputStreams = [⟨0⟩, ⟨1⟩] ∧
    rejectingOpen._previousProcessedStreamDuration = 0 ∧
    rejectingAdapter.getStreamDuration rejectingOpen._formatContext 0 = 0 ∧
    rejectingAdapter.getStreamDuration rejectingOpen._formatContext 1 = 0 ∧
    (OutputFile.wrap sampleEnv rejectingAdapter rejectingOpen (bytes 5) 0).1
      = .threw .adapterError ∧
    (OutputFile.wrapAll sampleEnv rejectingAdapter rejectingOpen
      [(bytes 5, 0)])._previousProcessedStreamDuration = 0 ∧
    rejectingAdapter.getStreamDuration
      (OutputFile.wrapAll sampleEnv rejectingAdapter rejectingOpen [(bytes 5, 0)])._formatContext 0
      = 5 ∧
    ¬ (OutputFile.wrapAll sampleEnv rejectingAdapter rejectingOpen
      [(bytes 5, 0)]).WatermarkIsMax rejectingAdapter := by
  refine ⟨rejectingAdapter_durationContract, by decide, by decide, by decide, by decide,
    by decide, by decide, by decide, ?_⟩
  intro h
  have h0 := h.1 0 ⟨0⟩ (by decide)
  revert h0
  decide

/-- C10, amended (the watermark is the furthest stream duration): start from a
state with at least one registered stream, watermark 0 as set by the
constructor, and all stream durations 0; assume that the durations reported by
the adapter never decrease, that a packet changes only the duration of the
stream it is written for, and that a packet the adapter rejects changes no
duration.  After every sequence of `wrap` calls for registered streams, the
registered streams are the same, no stream has a duration above the watermark,
and some stream has exactly the watermark as duration: the watermark is the
maximum of the stream durations. -/
theorem watermark_is_max_duration (env : Env) (ad : FormatContext σ) (s0 : OutputFile σ)
    (calls : List (CodedData × Nat))
    (hwatermark : s0._previousProcessedStreamDuration = 0)
    (hstreams : s0._outputStreams ≠ [])
    (hzero : ∀ (j : Nat) (os : OutputStream), s0._outputStreams[j]? = some os →
      ad.getStreamDuration s0._formatContext os._streamIndex = 0)
    (hcontract : ad.DurationContract s0._outputStreams)
    (hrejected : ad.RejectionKeepsDurations s0._outputStreams)
    (hvalid : ∀ c ∈ calls, c.2 < s0._outputStreams.length) :
    (OutputFile.wrapAll env ad s0 calls)._outputStreams = s0._outputStreams ∧
    (OutputFile.wrapAll env ad s0 calls).WatermarkIsMax ad := by
  have h0 : s0.WatermarkIsMax ad := by
    refine ⟨?_, ?_⟩
    · intro j os hj
      rw [hzero j os hj, hwatermark]
    · cases hs : s0._outputStreams with
      | nil => exact absurd hs hstreams
      | cons os rest =>
        refine ⟨0, os, by simp, ?_⟩
        rw [hzero 0 os (by simp [hs]), hwatermark]
  exact OutputFile.wrapAll_watermarkIsMax env ad calls s0 hcontract hrejected hvalid h0

/-- Witness of the amended C10 on the open sample wrapper: stream A receives 10
bytes, then stream B receives 5 bytes (`eWrappingWaitingForData`) and 6 more;
the watermark is then 11, the duration of B. -/
theorem watermark_is_max_duration_witness :
    (OutputFile.wrapAll sampleEnv sampleAdapter sampleOpen
      [(bytes 10, 0), (bytes 5, 1), (bytes 6, 1)])._previousProcessedStreamDuration = 11 ∧
    (OutputFile.wrapAll sampleEnv sampleAdapter sampleOpen
      [(bytes 10, 0), (bytes 5, 1), (bytes 6, 1)]).WatermarkIsMax sampleAdapter :=
  ⟨by decide,
   (watermark_is_max_duration sampleEnv sampleAdapter sampleOpen
    [(bytes 10, 0), (bytes 5, 1), (bytes 6, 1)] (by decide) (by decide)
    (by
      intro j os hj
      have hs : sampleOpen._outputStreams = [⟨0⟩, ⟨1⟩] := by decide
      rw [hs] at hj
      match j, hj with
      | 0, hj => simp at hj; rw [← hj]; decide
      | 1, hj => simp at hj; rw [← hj]; decide
      | n + 2, hj => simp at hj)
    sampleAdapter_durationContract sampleAdapter_rejectionKeepsDurations (by decide)).2⟩

end avtranscoder
